import Mathlib

/-!
Verification of the image-resolution and upload-deduplication subsystem of
the `lm_backend` repository (an Express gateway in front of the Rentman
property API, offloading image storage to Cloudinary).

The development shallowly embeds, in order:
* the in-memory TTL cache (`Cache` in the caching module),
* the filename size-suffix parsing of the `GET /api/images/:filename` route,
* the Cloudinary service's URL generation (`generateUrl` / `generateSizeUrl`
  / `uploadMultipleSizes`),
* the whole image route as a deterministic function of its external-call
  outcomes (CDN existence check, upstream media fetch, CDN upload),
* an event-loop interleaving model of N concurrent requests for one
  `baseName`, with the in-flight upload registry (`uploadingImages`).

Times are naturals (milliseconds), machine state is passed explicitly, and
every externally-observable effect (HTTP response, cache writes, outbound
call counts) is part of the function results, so each claim can be settled
by evaluation or by induction on the step relation.
-/

namespace LmBackend

/-! ## Transform Cache (Cache class of the caching module)

The JS `Map` is embedded as an insertion-ordered association list with
unique keys: `Map.set` on a fresh key appends, on an existing key replaces
in place, `Map.delete` removes the entry, and iteration follows list order,
exactly the JS `Map` iteration contract. -/

structure CacheItem (α : Type) where
  value : α
  expires : Nat
  created : Nat
deriving DecidableEq

structure CacheState (α : Type) where
  items : List (String × CacheItem α)
  maxSize : Nat
  defaultTtlMs : Nat
deriving DecidableEq

/-- Map.set semantics: replace in place if the key is present, else append. -/
def putKey {α : Type} (key : String) (item : CacheItem α)
    (l : List (String × CacheItem α)) : List (String × CacheItem α) :=
  if (l.lookup key).isSome then
    l.map (fun p => if p.1 = key then (key, item) else p)
  else
    l ++ [(key, item)]

/-- Map.delete semantics (keys are unique in every state built by `putKey`). -/
def dropKey {α : Type} (key : String) (l : List (String × CacheItem α)) :
    List (String × CacheItem α) :=
  l.filter (fun p => p.1 ≠ key)

/-- `Cache.get`: lookup, and lazily delete and report `null` when
`Date.now() > item.expires`. Returns the value (if any) and the state after
the call. -/
def cacheGet {α : Type} (s : CacheState α) (key : String) (now : Nat) :
    Option α × CacheState α :=
  match s.items.lookup key with
  | none => (none, s)
  | some item =>
    if now > item.expires then
      (none, { s with items := dropKey key s.items })
    else
      (some item.value, s)

/-- The min-scan of `Cache.evictOldest`: fold over the entries keeping the
first strict improvement, starting from `oldestKey = ''`,
`oldestTime = Date.now()`. -/
def oldestScan {α : Type} (l : List (String × CacheItem α))
    (acc : String × Nat) : String × Nat :=
  l.foldl (fun acc p => if p.2.created < acc.2 then (p.1, p.2.created) else acc) acc

/-- `Cache.evictOldest`: delete the scanned key, but only when it is a
non-empty string (the JS code guards with a truthiness test `if (oldestKey)`). -/
def evictOldest {α : Type} (l : List (String × CacheItem α)) (now : Nat) :
    List (String × CacheItem α) :=
  let scan := oldestScan l ("", now)
  if scan.1 ≠ "" then dropKey scan.1 l else l

/-- `Cache.set`: evict first when `size >= maxSize`, then insert with
`expires = now + ttl`, `created = now`; a custom TTL is given in seconds and
converted to ms, and a falsy (`0`) custom TTL falls back to the default. -/
def resolveTtlMs (defaultTtlMs : Nat) : Option Nat → Nat
  | some t => if t = 0 then defaultTtlMs else t * 1000
  | none => defaultTtlMs

def cacheSet {α : Type} (s : CacheState α) (key : String) (value : α)
    (customTtl : Option Nat) (now : Nat) : CacheState α :=
  let items₁ := if s.items.length ≥ s.maxSize then evictOldest s.items now else s.items
  { s with items := putKey key ⟨value, now + resolveTtlMs s.defaultTtlMs customTtl, now⟩ items₁ }

/-! ## Filename parsing of the image route

The route extracts a size token with `filename.match(/_(\w+)\./)` and strips
it with `filename.replace(/_\w+\./, '.')`. Both are embedded at character
level. JS `\w` is `[A-Za-z0-9_]` and `\d` is `[0-9]`; both regexes are
unanchored and non-global, so they act on the first match. -/

def isWordChar (c : Char) : Bool :=
  ('a' ≤ c && c ≤ 'z') || ('A' ≤ c && c ≤ 'Z') || ('0' ≤ c && c ≤ '9') || c = '_'

/-- First match of `/_(\w+)\./`: returns
(characters before the underscore, captured token, rest starting at the dot).
A `\w+` run that is not immediately followed by a dot cannot match by
backtracking (shortening the run leaves a word character, never a dot), so
the matcher moves on to the next start position. -/
def splitSizeSuffix : List Char → Option (List Char × List Char × List Char)
  | [] => none
  | c :: rest =>
    if c = '_' then
      let run := rest.takeWhile isWordChar
      let after := rest.dropWhile isWordChar
      if run ≠ [] ∧ after.head? = some '.' then
        some ([], run, after)
      else
        (splitSizeSuffix rest).map (fun p => (c :: p.1, p.2.1, p.2.2))
    else
      (splitSizeSuffix rest).map (fun p => (c :: p.1, p.2.1, p.2.2))

/-- Capture group of `filename.match(/_(\w+)\./)`, when the regex matches. -/
def tokenOf (filename : String) : Option String :=
  (splitSizeSuffix filename.data).map (fun p => String.mk p.2.1)

/-- `filename.replace(/_\w+\./, '.')` (the dot is kept by the replacement). -/
def stripSizeSuffix (filename : String) : String :=
  match splitSizeSuffix filename.data with
  | some p => String.mk (p.1 ++ p.2.2)
  | none => filename

/-- `let imageSize = size as string || 'medium'; if (sizeMatch) imageSize =
sizeMatch[1];` — the query value (empty string counting as absent) is the
default, and a filename token overrides it. -/
def extractImageSize (sizeQuery : Option String) (filename : String) : String :=
  let fromQuery := match sizeQuery with
    | some s => if s = "" then "medium" else s
    | none => "medium"
  match tokenOf filename with
  | some t => t
  | none => fromQuery

/-- `baseFilename.replace(/\.[^/.]+$/, '')`: drop a final extension made of
one or more characters other than `/` and `.`. -/
def stripLastExt (s : String) : String :=
  let r := s.data.reverse
  let ext := r.takeWhile (fun c => c ≠ '.' && c ≠ '/')
  let rest := r.dropWhile (fun c => c ≠ '.' && c ≠ '/')
  if ext ≠ [] ∧ rest.head? = some '.' then String.mk rest.tail.reverse else s

/-- `s.replace(/^v\d+\//, '')`: drop a leading `vNN/` segment. -/
def dropLeadingVersionSeg (s : String) : String :=
  match s.data with
  | 'v' :: rest =>
    let ds := rest.takeWhile Char.isDigit
    let t := rest.dropWhile Char.isDigit
    if ds ≠ [] ∧ t.head? = some '/' then String.mk t.tail else s
  | _ => s

/-- `replace(/\/v\d+\//, '/')` on a character list: rewrite the first
`/vNN/` occurrence to `/` and leave the remainder untouched. -/
def replaceInnerVersionSeg : List Char → List Char
  | [] => []
  | c :: rest =>
    if c = '/' then
      match rest with
      | 'v' :: r2 =>
        let ds := r2.takeWhile Char.isDigit
        let t := r2.dropWhile Char.isDigit
        if ds ≠ [] ∧ t.head? = some '/' then c :: t.tail
        else c :: replaceInnerVersionSeg rest
      | _ => c :: replaceInnerVersionSeg rest
    else c :: replaceInnerVersionSeg rest

def dropInnerVersionSeg (s : String) : String :=
  String.mk (replaceInnerVersionSeg s.data)

/-! ## Cloudinary service (CloudinaryService)

`cloudinary.url` is a pure string builder; a URL is embedded as the record
of everything the builder bakes into the string: the cleaned public id, the
transformation parameters, and the version token. The builder omits a falsy
(absent or empty) version, per the Cloudinary SDK contract used by
`generateUrl`'s `version:` option. -/

inductive Quality where
  | num (n : Nat)
  | auto
deriving DecidableEq

structure CloudinaryTransformation where
  width : Option Nat
  height : Option Nat
  quality : Option Quality
  crop : Option String
  gravity : Option String
deriving DecidableEq

/-- The transformation table of `generateSizeUrl`; lookup of any other key
in the object literal yields `undefined`. -/
def sizeTransformations (size : String) : Option CloudinaryTransformation :=
  if size = "thumb" then some ⟨some 300, some 200, some (.num 80), some "fill", some "auto"⟩
  else if size = "medium" then some ⟨some 800, some 600, some (.num 85), some "fill", some "auto"⟩
  else if size = "large" then some ⟨some 1200, some 900, some (.num 90), some "fill", some "auto"⟩
  else if size = "original" then some ⟨none, none, some .auto, none, none⟩
  else none

structure Url where
  publicId : String
  transformation : Option CloudinaryTransformation
  version : Option String
deriving DecidableEq

/-- `CloudinaryService.generateUrl`: clean the public id of leading and
inner version segments, then build the URL from transformation and version. -/
def generateUrl (publicId : String) (tf : Option CloudinaryTransformation)
    (version : Option String) : Url :=
  { publicId := dropInnerVersionSeg (dropLeadingVersionSeg publicId)
    transformation := tf
    version := match version with
      | some v => if v = "" then none else some v
      | none => none }

/-- `CloudinaryService.generateSizeUrl`. -/
def generateSizeUrl (publicId : String) (size : String)
    (version : Option String) : Url :=
  generateUrl publicId (sizeTransformations size) version

/-- The four-entry size-to-URL map built by `uploadMultipleSizes` from the
upload result's cleaned public id and version string. -/
def fourSizeResults (publicId : String) (versionStr : String) :
    List (String × Url) :=
  [("thumb", generateSizeUrl publicId "thumb" (some versionStr)),
   ("medium", generateSizeUrl publicId "medium" (some versionStr)),
   ("large", generateSizeUrl publicId "large" (some versionStr)),
   ("original", generateSizeUrl publicId "original" (some versionStr))]

/-- `cloudinaryResults[imageSize] || cloudinaryResults['medium']`. -/
def pickResultUrl (results : List (String × Url)) (size : String)
    (mediumFallback : Url) : Url :=
  match results.lookup size with
  | some u => u
  | none => mediumFallback

/-! ## The GET /api/images/:filename route (RentmanServer.setupRoutes)

The handler is embedded as a deterministic function of the request, the
cache state, and the outcomes of the three external calls it can make: the
CDN existence check (`cloudinaryService.getImageInfo`), the upstream media
fetch (`client.getPropertyMedia`), and the CDN upload
(`cloudinary.uploader.upload` via `uploadBase64Image`). This is the
single-request semantics: the in-flight registry (`uploadingImages`) holds
no entry for the request's base name, so the handler takes the registering
branch; the concurrent semantics is modelled separately below. The result
records the reply, the cache state after the call, the list of cache writes
performed, how many calls of each kind went out, and the identifiers the
CDN and upstream were queried with. -/

inductive CallResult (α : Type) where
  | ok (a : α)
  | err (msg : String)
deriving DecidableEq

/-- What the route reads off a successful `getImageInfo` reply. -/
structure ImageInfo where
  version : Option Nat
deriving DecidableEq

/-- One element of `mediaResponse.data`. -/
structure MediaRecord where
  base64data : Option String
deriving DecidableEq

/-- What `uploadBase64Image` reads off a successful raw upload reply. -/
structure UploadResp where
  publicIdRaw : String
  version : Option Nat
deriving DecidableEq

structure RouteEnv where
  cdn : CallResult ImageInfo
  upstream : CallResult (List MediaRecord)
  upload : CallResult UploadResp
deriving DecidableEq

structure ErrBody where
  success : Bool
  message : String
  details : String
  timestamp : String
deriving DecidableEq

inductive HttpReply where
  | redirect302 (u : Url)
  | jsonError (status : Nat) (body : ErrBody)
deriving DecidableEq

def HttpReply.status : HttpReply → Nat
  | .redirect302 _ => 302
  | .jsonError s _ => s

structure RouteResult where
  reply : HttpReply
  cacheOut : CacheState Url
  cacheWrites : List (String × Url)
  cdnCalls : Nat
  upstreamCalls : Nat
  uploadCalls : Nat
  cdnQuery : Option String
  upstreamQuery : Option String
deriving DecidableEq

/-- `CLOUDINARY_FOLDER` default from the configuration module. -/
def cloudinaryFolder : String := "rentman-properties"

/-- `CacheKeys.image(filename, size)`. -/
def imageCacheKey (baseFilename size : String) : String :=
  "image:" ++ baseFilename ++ ":" ++ size

/-- The 404 body built by the route's Rentman-path catch. -/
def notFoundBody (filename details tsNow : String) : ErrBody :=
  ⟨false, "Image " ++ filename ++ " not found in Rentman API", details, tsNow⟩

def imageRoute (env : RouteEnv) (filename : String) (sizeQuery : Option String)
    (st : CacheState Url) (now : Nat) (tsNow : String) : RouteResult :=
  let imageSize := extractImageSize sizeQuery filename
  let baseFilename := stripSizeSuffix filename
  let baseNameNoExt := stripLastExt baseFilename
  let publicId := dropLeadingVersionSeg (cloudinaryFolder ++ "/" ++ baseNameNoExt)
  let cacheKey := imageCacheKey baseFilename imageSize
  match cacheGet st cacheKey now with
  | (some url, st₁) =>
      { reply := .redirect302 url, cacheOut := st₁, cacheWrites := []
        cdnCalls := 0, upstreamCalls := 0, uploadCalls := 0
        cdnQuery := none, upstreamQuery := none }
  | (none, st₁) =>
    match env.cdn with
    | .ok info =>
        let version := info.version.map (fun v => toString v)
        let url := generateSizeUrl publicId imageSize version
        let st₂ := cacheSet st₁ cacheKey url (some 3600) now
        { reply := .redirect302 url, cacheOut := st₂, cacheWrites := [(cacheKey, url)]
          cdnCalls := 1, upstreamCalls := 0, uploadCalls := 0
          cdnQuery := some publicId, upstreamQuery := none }
    | .err _ =>
      match env.upstream with
      | .err e =>
          { reply := .jsonError 404 (notFoundBody filename e tsNow)
            cacheOut := st₁, cacheWrites := []
            cdnCalls := 1, upstreamCalls := 1, uploadCalls := 0
            cdnQuery := some publicId, upstreamQuery := some baseFilename }
      | .ok [] =>
          { reply := .jsonError 404 (notFoundBody filename
              ("Image " ++ filename ++ " not found in Rentman API") tsNow)
            cacheOut := st₁, cacheWrites := []
            cdnCalls := 1, upstreamCalls := 1, uploadCalls := 0
            cdnQuery := some publicId, upstreamQuery := some baseFilename }
      | .ok (m :: _) =>
        match m.base64data with
        | none =>
            { reply := .jsonError 404 (notFoundBody filename
                ("No base64 data for image " ++ filename) tsNow)
              cacheOut := st₁, cacheWrites := []
              cdnCalls := 1, upstreamCalls := 1, uploadCalls := 0
              cdnQuery := some publicId, upstreamQuery := some baseFilename }
        | some _ =>
          match env.upload with
          | .err e =>
              { reply := .jsonError 404 (notFoundBody filename
                  ("Failed to upload image to Cloudinary: " ++ e) tsNow)
                cacheOut := st₁, cacheWrites := []
                cdnCalls := 1, upstreamCalls := 1, uploadCalls := 1
                cdnQuery := some publicId, upstreamQuery := some baseFilename }
          | .ok resp =>
              let upPid := dropLeadingVersionSeg resp.publicIdRaw
              let versionStr := match resp.version with
                | some v => toString v
                | none => ""
              let results := fourSizeResults upPid versionStr
              let st₂ := results.foldl
                (fun acc p => cacheSet acc (imageCacheKey baseFilename p.1) p.2 (some 3600) now) st₁
              let url := pickResultUrl results imageSize
                (generateSizeUrl upPid "medium" (some versionStr))
              { reply := .redirect302 url, cacheOut := st₂
                cacheWrites := results.map (fun p => (imageCacheKey baseFilename p.1, p.2))
                cdnCalls := 1, upstreamCalls := 1, uploadCalls := 1
                cdnQuery := some publicId, upstreamQuery := some baseFilename }

/-! ## Supporting lemmas about the cache -/

theorem oldestScan_spec {α : Type} (l : List (String × CacheItem α)) (acc : String × Nat) :
    (oldestScan l acc = acc ∧ ∀ p ∈ l, acc.2 ≤ p.2.created)
    ∨ (∃ p ∈ l, oldestScan l acc = (p.1, p.2.created) ∧ p.2.created < acc.2
        ∧ ∀ q ∈ l, p.2.created ≤ q.2.created) := by
  induction l generalizing acc with
  | nil => exact .inl ⟨rfl, by simp⟩
  | cons p l ih =>
    have hfold : oldestScan (p :: l) acc
        = oldestScan l (if p.2.created < acc.2 then (p.1, p.2.created) else acc) := rfl
    by_cases hc : p.2.created < acc.2
    · rw [if_pos hc] at hfold
      rcases ih (p.1, p.2.created) with ⟨heq, hall⟩ | ⟨q, hq, heq, hlt, hall⟩
      · refine .inr ⟨p, List.mem_cons_self p l, hfold.trans heq, hc, ?_⟩
        intro r hr
        rcases List.mem_cons.mp hr with rfl | hr
        · exact Nat.le_refl _
        · exact hall r hr
      · refine .inr ⟨q, List.mem_cons_of_mem p hq, hfold.trans heq, Nat.lt_trans hlt hc, ?_⟩
        intro r hr
        rcases List.mem_cons.mp hr with rfl | hr
        · exact Nat.le_of_lt hlt
        · exact hall r hr
    · rw [if_neg hc] at hfold
      rcases ih acc with ⟨heq, hall⟩ | ⟨q, hq, heq, hlt, hall⟩
      · refine .inl ⟨hfold.trans heq, ?_⟩
        intro r hr
        rcases List.mem_cons.mp hr with rfl | hr
        · exact Nat.le_of_not_lt hc
        · exact hall r hr
      · refine .inr ⟨q, List.mem_cons_of_mem p hq, hfold.trans heq, hlt, ?_⟩
        intro r hr
        rcases List.mem_cons.mp hr with rfl | hr
        · exact Nat.le_of_lt (Nat.lt_of_lt_of_le hlt (Nat.le_of_not_lt hc))
        · exact hall r hr

theorem lookup_filter_none {β : Type} (key : String) (f : String × β → Bool)
    (l : List (String × β)) (h : l.lookup key = none) :
    (l.filter f).lookup key = none := by
  induction l with
  | nil => simp
  | cons p l ih =>
    rcases p with ⟨k, v⟩
    by_cases hbe : key = k
    · subst hbe
      simp [List.lookup] at h
    · have h' : l.lookup key = none := by
        simpa [List.lookup, beq_false_of_ne hbe] using h
      by_cases hf : f (k, v)
      · simpa [List.filter, hf, List.lookup, beq_false_of_ne hbe] using ih h'
      · simpa [List.filter, hf] using ih h'

theorem filter_key_length {β : Type} (l : List (String × β)) (k : String)
    (hnd : (l.map Prod.fst).Nodup) (hm : ∃ it, (k, it) ∈ l) :
    (l.filter (fun q => q.1 ≠ k)).length + 1 = l.length := by
  induction l with
  | nil => rcases hm with ⟨it, hit⟩; cases hit
  | cons p l ih =>
    have hnd2 : p.1 ∉ l.map Prod.fst ∧ (l.map Prod.fst).Nodup := by
      rw [List.map_cons] at hnd
      exact List.nodup_cons.mp hnd
    obtain ⟨hp, hnd'⟩ := hnd2
    by_cases hpk : p.1 = k
    · have hkeep : l.filter (fun q => q.1 ≠ k) = l := by
        apply List.filter_eq_self.mpr
        intro q hq
        have hmem : q.1 ∈ l.map Prod.fst := List.mem_map_of_mem Prod.fst hq
        have hqne : q.1 ≠ k := by
          intro hqk
          rw [hqk, ← hpk] at hmem
          exact hp hmem
        simpa using hqne
      have hfp : (decide (p.1 ≠ k)) = false := by simp [hpk]
      have hdrop : (p :: l).filter (fun q => q.1 ≠ k) = l := by
        rw [List.filter_cons, hfp]
        simpa using hkeep
      rw [hdrop, List.length_cons]
    · rcases hm with ⟨it, hit⟩
      rcases List.mem_cons.mp hit with heq | hit'
      · exact absurd (congrArg Prod.fst heq.symm) hpk
      · have hih := ih hnd' ⟨it, hit'⟩
        have hcons : (p :: l).filter (fun q => q.1 ≠ k)
            = p :: l.filter (fun q => q.1 ≠ k) := by
          simp [List.filter_cons, hpk]
        rw [hcons, List.length_cons, List.length_cons]
        omega

/-! ## Claim C8 -/

/-- C8: for every key and lookup time, `Cache.get` never returns an entry past
`insertedAt + ttl`: when `now` is past expiry, the entry is lazily deleted on
read and the lookup reports absent (`null`), exactly as if never stored. -/
theorem cache_get_never_serves_expired {α : Type} (s : CacheState α) (key : String)
    (now ttl : Nat) (item : CacheItem α)
    (hl : s.items.lookup key = some item)
    (httl : item.expires = item.created + ttl)
    (hpast : item.created + ttl < now) :
    cacheGet s key now = (none, { s with items := dropKey key s.items }) := by
  have hgt : now > item.expires := by rw [httl]; exact hpast
  simp [cacheGet, hl, hgt]

/-- Witness for C8 at a concrete expired entry. -/
theorem cache_get_never_serves_expired_witness :
    cacheGet (⟨[("k", ⟨(7 : Nat), 1100, 100⟩)], 10, 300000⟩ : CacheState Nat) "k" 2000
      = (none, ⟨[], 10, 300000⟩) := by
  have h := cache_get_never_serves_expired
    (⟨[("k", ⟨(7 : Nat), 1100, 100⟩)], 10, 300000⟩ : CacheState Nat) "k" 2000 1000
    ⟨7, 1100, 100⟩ (by decide) (by decide) (by decide)
  exact h.trans (by decide)

/-! ## Claim C9 -/

/-- C9 counterexample: a cache at capacity (`maxSize = 1`, one entry) whose
only entry was inserted at the current millisecond. `Cache.set` evicts
nothing (the min-scan seeds `oldestTime` with `Date.now()` and keeps only
strict improvements), and the cache grows to two entries, refuting
"exactly one entry is evicted before the new entry is inserted". -/
theorem cache_set_capacity_eviction_cex :
    ((⟨[("k1", ⟨(7 : Nat), 100100, 100⟩)], 1, 300000⟩ : CacheState Nat).items.length ≥
      (⟨[("k1", ⟨(7 : Nat), 100100, 100⟩)], 1, 300000⟩ : CacheState Nat).maxSize)
    ∧ (cacheSet (⟨[("k1", ⟨(7 : Nat), 100100, 100⟩)], 1, 300000⟩ : CacheState Nat)
        "k2" 8 (some 3600) 100).items
      = [("k1", ⟨7, 100100, 100⟩), ("k2", ⟨8, 3600100, 100⟩)] := by decide

/-- C9 amended: when the cache holds at least `maxSize` entries, keys are
distinct and non-empty, the requested key is fresh, and at least one entry
was inserted strictly before the current call's timestamp, `Cache.set`
evicts exactly one entry — one with minimal insertion timestamp — leaves
every other entry in place, and appends the new entry. -/
theorem cache_set_evicts_single_oldest {α : Type} (s : CacheState α) (key : String)
    (value : α) (t now : Nat)
    (hcap : s.items.length ≥ s.maxSize)
    (hnd : (s.items.map Prod.fst).Nodup)
    (hne : ∀ p ∈ s.items, p.1 ≠ "")
    (hstale : ∃ p ∈ s.items, p.2.created < now)
    (hfresh : s.items.lookup key = none)
    (ht : t ≠ 0) :
    ∃ p ∈ s.items,
      (∀ q ∈ s.items, p.2.created ≤ q.2.created)
      ∧ (cacheSet s key value (some t) now).items
          = s.items.filter (fun q => q.1 ≠ p.1) ++ [(key, ⟨value, now + t * 1000, now⟩)]
      ∧ (s.items.filter (fun q => q.1 ≠ p.1)).length + 1 = s.items.length := by
  rcases oldestScan_spec s.items ("", now) with ⟨_, hall⟩ | ⟨p, hp, heq, _, hmin⟩
  · rcases hstale with ⟨p, hp, hlt⟩
    exact absurd (hall p hp) (Nat.not_le_of_lt hlt)
  · refine ⟨p, hp, hmin, ?_, ?_⟩
    · have hp1 : p.1 ≠ "" := hne p hp
      have hev : evictOldest s.items now = s.items.filter (fun q => q.1 ≠ p.1) := by
        simp [evictOldest, heq, hp1, dropKey]
      have hlf : (s.items.filter (fun q => q.1 ≠ p.1)).lookup key = none :=
        lookup_filter_none key _ s.items hfresh
      have hput : putKey key (⟨value, now + t * 1000, now⟩ : CacheItem α)
          (s.items.filter (fun q => q.1 ≠ p.1))
          = s.items.filter (fun q => q.1 ≠ p.1)
              ++ [(key, ⟨value, now + t * 1000, now⟩)] := by
        unfold putKey
        rw [hlf]
        rfl
      have httl : resolveTtlMs s.defaultTtlMs (some t) = t * 1000 := by
        simp [resolveTtlMs, ht]
      simp only [cacheSet, httl, if_pos hcap, hev, hput]
    · exact filter_key_length s.items p.1 hnd ⟨p.2, by simpa using hp⟩

/-- Witness for the amended C9 at a concrete two-entry cache at capacity. -/
theorem cache_set_evicts_single_oldest_witness :
    ∃ p ∈ (⟨[("a", ⟨(1 : Nat), 500, 10⟩), ("b", ⟨2, 600, 20⟩)], 2, 300000⟩
            : CacheState Nat).items,
      (∀ q ∈ (⟨[("a", ⟨(1 : Nat), 500, 10⟩), ("b", ⟨2, 600, 20⟩)], 2, 300000⟩
            : CacheState Nat).items, p.2.created ≤ q.2.created)
      ∧ (cacheSet (⟨[("a", ⟨(1 : Nat), 500, 10⟩), ("b", ⟨2, 600, 20⟩)], 2, 300000⟩
            : CacheState Nat) "c" 3 (some 1) 100).items
          = (⟨[("a", ⟨(1 : Nat), 500, 10⟩), ("b", ⟨2, 600, 20⟩)], 2, 300000⟩
            : CacheState Nat).items.filter (fun q => q.1 ≠ p.1)
            ++ [("c", ⟨3, 100 + 1 * 1000, 100⟩)]
      ∧ ((⟨[("a", ⟨(1 : Nat), 500, 10⟩), ("b", ⟨2, 600, 20⟩)], 2, 300000⟩
            : CacheState Nat).items.filter (fun q => q.1 ≠ p.1)).length + 1
          = (⟨[("a", ⟨(1 : Nat), 500, 10⟩), ("b", ⟨2, 600, 20⟩)], 2, 300000⟩
            : CacheState Nat).items.length :=
  cache_set_evicts_single_oldest _ "c" 3 1 100 (by decide) (by decide)
    (by decide) ⟨("a", ⟨1, 500, 10⟩), by decide, by decide⟩ (by decide) (by decide)

/-! ## Claim C7 -/

/-- C7: cache-hit short-circuit. When the Transform Cache holds an unexpired
URL for the requested base name and size variant, the route redirects to the
cached URL immediately, performs zero CDN, upstream, and upload calls,
writes nothing, and leaves the cache unchanged. -/
theorem image_route_cache_hit_short_circuit (env : RouteEnv) (f : String)
    (q : Option String) (st : CacheState Url) (now : Nat) (ts : String)
    (item : CacheItem Url)
    (hl : st.items.lookup (imageCacheKey (stripSizeSuffix f) (extractImageSize q f))
        = some item)
    (hfresh : ¬ now > item.expires) :
    imageRoute env f q st now ts =
      { reply := .redirect302 item.value, cacheOut := st, cacheWrites := []
        cdnCalls := 0, upstreamCalls := 0, uploadCalls := 0
        cdnQuery := none, upstreamQuery := none } := by
  have hc : cacheGet st (imageCacheKey (stripSizeSuffix f) (extractImageSize q f)) now
      = (some item.value, st) := by
    simp [cacheGet, hl, hfresh]
  simp [imageRoute, hc]

/-- Witness for C7 at a concrete cached entry. -/
theorem image_route_cache_hit_short_circuit_witness :
    imageRoute ⟨.err "e", .err "e", .err "e"⟩ "p1_thumb.jpg" none
      (⟨[("image:p1.jpg:thumb", ⟨⟨"x", none, some "3"⟩, 5000, 100⟩)], 1000, 300000⟩ : CacheState Url)
      500 "T"
    = { reply := .redirect302 ⟨"x", none, some "3"⟩
        cacheOut := ⟨[("image:p1.jpg:thumb", ⟨⟨"x", none, some "3"⟩, 5000, 100⟩)], 1000, 300000⟩
        cacheWrites := [], cdnCalls := 0, upstreamCalls := 0, uploadCalls := 0
        cdnQuery := none, upstreamQuery := none } :=
  image_route_cache_hit_short_circuit ⟨.err "e", .err "e", .err "e"⟩ "p1_thumb.jpg" none
    _ 500 "T" ⟨⟨"x", none, some "3"⟩, 5000, 100⟩ (by decide) (by decide)

/-! ## Claim C10 -/

/-- C10: when the filename carries an underscore-delimited token before a
dot, that token is the size variant used, and the whole route is insensitive
to the `size` query parameter; the query parameter takes effect only when
the filename has no token (a non-empty query value is then used as given). -/
theorem filename_token_overrides_size_query :
    (∀ (q : Option String) (f t : String), tokenOf f = some t → extractImageSize q f = t)
    ∧ (∀ (env : RouteEnv) (f : String) (q₁ q₂ : Option String) (st : CacheState Url)
        (now : Nat) (ts : String) (t : String), tokenOf f = some t →
        imageRoute env f q₁ st now ts = imageRoute env f q₂ st now ts)
    ∧ (∀ (f s : String), tokenOf f = none → s ≠ "" → extractImageSize (some s) f = s) := by
  refine ⟨?_, ?_, ?_⟩
  · intro q f t h
    simp [extractImageSize, h]
  · intro env f q₁ q₂ st now ts t h
    have h1 : extractImageSize q₁ f = extractImageSize q₂ f := by
      simp [extractImageSize, h]
    simp only [imageRoute, h1]
  · intro f s h hs
    simp [extractImageSize, h, hs]

/-- Witness for C10: a filename token beats a conflicting query parameter. -/
theorem filename_token_overrides_size_query_witness :
    extractImageSize (some "large") "p_thumb.jpg" = "thumb" :=
  filename_token_overrides_size_query.1 (some "large") "p_thumb.jpg" "thumb" (by decide)

/-! ## Claim C3 -/

/-- C3 counterexample: `"foo_custom.jpg"` has no recognized size suffix, yet
the size variant used is `"custom"`, not `"medium"`; and on the CDN-found
path the URL generated (and cached) for it carries no transformation
parameters at all, differing from the medium URL — so an unrecognized token
is not treated as `medium` there. -/
theorem size_suffix_tolerance_cex :
    tokenOf "foo_custom.jpg" = some "custom"
    ∧ sizeTransformations "custom" = none
    ∧ extractImageSize none "foo_custom.jpg" = "custom"
    ∧ (imageRoute ⟨.ok ⟨some 5⟩, .err "x", .err "x"⟩ "foo_custom.jpg" none
        ⟨[], 1000, 300000⟩ 0 "T").reply
      = .redirect302 ⟨"rentman-properties/foo", none, some "5"⟩
    ∧ (⟨"rentman-properties/foo", none, some "5"⟩ : Url)
      ≠ generateSizeUrl "rentman-properties/foo" "medium" (some "5") := by decide

/-- C3 amended: (i) with no size token in the filename and no query
parameter the size variant defaults to `medium`; (ii) when the final URL is
selected from an upload result map, an unrecognized size token falls back
to the map's medium entry rather than failing; (iii) on every cache miss
the CDN is queried by the suffix-stripped and extension-stripped public id,
and the upstream — whenever it is queried at all — by the suffix-stripped
filename. -/
theorem size_suffix_tolerance_amended :
    (∀ f : String, tokenOf f = none → extractImageSize none f = "medium")
    ∧ (∀ (pid ver sz : String) (fb : Url), sizeTransformations sz = none →
        pickResultUrl (fourSizeResults pid ver) sz fb = fb)
    ∧ (∀ (env : RouteEnv) (f : String) (q : Option String) (st : CacheState Url)
        (now : Nat) (ts : String),
        (cacheGet st (imageCacheKey (stripSizeSuffix f) (extractImageSize q f)) now).1 = none →
        (imageRoute env f q st now ts).cdnQuery
          = some (dropLeadingVersionSeg (cloudinaryFolder ++ "/" ++ stripLastExt (stripSizeSuffix f)))
        ∧ ∀ b, (imageRoute env f q st now ts).upstreamQuery = some b → b = stripSizeSuffix f) := by
  refine ⟨?_, ?_, ?_⟩
  · intro f h
    simp [extractImageSize, h]
  · intro pid ver sz fb h
    have h1 : sz ≠ "thumb" := by intro he; rw [he] at h; simp [sizeTransformations] at h
    have h2 : sz ≠ "medium" := by intro he; rw [he] at h; simp [sizeTransformations] at h
    have h3 : sz ≠ "large" := by intro he; rw [he] at h; simp [sizeTransformations] at h
    have h4 : sz ≠ "original" := by intro he; rw [he] at h; simp [sizeTransformations] at h
    simp [pickResultUrl, fourSizeResults, List.lookup,
      beq_eq_false_iff_ne.mpr h1, beq_eq_false_iff_ne.mpr h2,
      beq_eq_false_iff_ne.mpr h3, beq_eq_false_iff_ne.mpr h4]
  · intro env f q st now ts hmiss
    rcases hc : cacheGet st (imageCacheKey (stripSizeSuffix f) (extractImageSize q f)) now
      with ⟨o, st₁⟩
    rw [hc] at hmiss
    simp only at hmiss
    subst hmiss
    rcases env with ⟨cdn, up, upl⟩
    rcases cdn with info | e
    · refine ⟨by simp [imageRoute, hc], ?_⟩
      intro b hb
      simp [imageRoute, hc] at hb
    · rcases up with l | e2
      · rcases l with _ | ⟨m, rest⟩
        · exact ⟨by simp [imageRoute, hc], fun b hb => by
            simp [imageRoute, hc] at hb; exact hb.symm⟩
        · rcases m with ⟨b64⟩
          rcases b64 with _ | b64v
          · exact ⟨by simp [imageRoute, hc], fun b hb => by
              simp [imageRoute, hc] at hb; exact hb.symm⟩
          · rcases upl with resp | e3
            · exact ⟨by simp [imageRoute, hc], fun b hb => by
                simp [imageRoute, hc] at hb; exact hb.symm⟩
            · exact ⟨by simp [imageRoute, hc], fun b hb => by
                simp [imageRoute, hc] at hb; exact hb.symm⟩
      · exact ⟨by simp [imageRoute, hc], fun b hb => by
          simp [imageRoute, hc] at hb; exact hb.symm⟩

/-- Witness for the amended C3 at concrete inputs. -/
theorem size_suffix_tolerance_amended_witness :
    extractImageSize none "foo.jpg" = "medium"
    ∧ pickResultUrl (fourSizeResults "p" "9") "custom"
        (generateSizeUrl "p" "medium" (some "9"))
      = generateSizeUrl "p" "medium" (some "9")
    ∧ (imageRoute ⟨.err "e", .err "e", .err "e"⟩ "foo_thumb.jpg" none
        ⟨[], 1000, 300000⟩ 0 "T").cdnQuery
      = some (dropLeadingVersionSeg (cloudinaryFolder ++ "/"
          ++ stripLastExt (stripSizeSuffix "foo_thumb.jpg"))) :=
  ⟨size_suffix_tolerance_amended.1 "foo.jpg" (by decide),
   size_suffix_tolerance_amended.2.1 "p" "9" "custom" _ (by decide),
   (size_suffix_tolerance_amended.2.2 ⟨.err "e", .err "e", .err "e"⟩ "foo_thumb.jpg" none
      ⟨[], 1000, 300000⟩ 0 "T" (by decide)).1⟩

/-! ## Claim C2 -/

/-- Whether the Rentman fetch-and-upload path of the route fails: upstream
error, no media record, record without payload bytes, or upload rejection. -/
def rentmanPathFails (env : RouteEnv) : Bool :=
  match env.upstream with
  | .err _ => true
  | .ok [] => true
  | .ok (m :: _) =>
    match m.base64data with
    | none => true
    | some _ =>
      match env.upload with
      | .err _ => true
      | .ok _ => false

/-- C2 counterexample: with the image present upstream (payload included) but
the CDN rejecting the upload, the route answers 404 — not the claimed
500-equivalent; an upstream network failure likewise yields 404, not a
502-equivalent. -/
theorem pipeline_error_status_cex :
    (imageRoute ⟨.err "nf", .ok [⟨some "abc"⟩], .err "rejected"⟩ "foo.jpg" none
      ⟨[], 1000, 300000⟩ 0 "T").reply.status = 404
    ∧ (imageRoute ⟨.err "nf", .err "ECONNRESET", .err "x"⟩ "foo.jpg" none
      ⟨[], 1000, 300000⟩ 0 "T").reply.status = 404
    ∧ (404 : Nat) ≠ 500 ∧ (404 : Nat) ≠ 502 := by decide

/-- C2 amended: after a cache miss and a CDN-check failure, every failure of
the fetch-and-upload pipeline — upstream error, absent record, record
without payload, and CDN upload rejection alike — is surfaced as status 404
with body `success = false`, the message "Image (filename) not found in
Rentman API", some failure details, and the request timestamp. -/
theorem pipeline_failure_yields_404 (env : RouteEnv) (f : String) (q : Option String)
    (st : CacheState Url) (now : Nat) (ts : String) (e : String)
    (hcdn : env.cdn = .err e)
    (hmiss : (cacheGet st (imageCacheKey (stripSizeSuffix f) (extractImageSize q f)) now).1
      = none)
    (hfail : rentmanPathFails env = true) :
    ∃ details, (imageRoute env f q st now ts).reply
      = .jsonError 404 ⟨false, "Image " ++ f ++ " not found in Rentman API", details, ts⟩ := by
  rcases hc : cacheGet st (imageCacheKey (stripSizeSuffix f) (extractImageSize q f)) now
    with ⟨o, st₁⟩
  rw [hc] at hmiss
  simp only at hmiss
  subst hmiss
  rcases env with ⟨cdn, up, upl⟩
  simp only at hcdn
  subst hcdn
  rcases up with l | e2
  · rcases l with _ | ⟨m, rest⟩
    · exact ⟨"Image " ++ f ++ " not found in Rentman API",
        by simp [imageRoute, hc, notFoundBody]⟩
    · rcases m with ⟨b64⟩
      rcases b64 with _ | b64v
      · exact ⟨"No base64 data for image " ++ f, by simp [imageRoute, hc, notFoundBody]⟩
      · rcases upl with resp | e3
        · simp [rentmanPathFails] at hfail
        · exact ⟨"Failed to upload image to Cloudinary: " ++ e3,
            by simp [imageRoute, hc, notFoundBody]⟩
  · exact ⟨e2, by simp [imageRoute, hc, notFoundBody]⟩

/-- Witness for the amended C2 at a concrete upload rejection. -/
theorem pipeline_failure_yields_404_witness :
    ∃ details,
      (imageRoute ⟨.err "nf", .ok [⟨some "abc"⟩], .err "rejected"⟩ "foo.jpg" none
        ⟨[], 1000, 300000⟩ 0 "T").reply
      = .jsonError 404 ⟨false, "Image " ++ "foo.jpg" ++ " not found in Rentman API",
          details, "T"⟩ :=
  pipeline_failure_yields_404 ⟨.err "nf", .ok [⟨some "abc"⟩], .err "rejected"⟩
    "foo.jpg" none ⟨[], 1000, 300000⟩ 0 "T" "nf" rfl (by decide) (by decide)

/-! ## Claim C4 -/

theorem fourSizeResults_versions (pid vs : String) (h : vs ≠ "") :
    ∀ p ∈ fourSizeResults pid vs, p.2.version = some vs := by
  intro p hp
  simp only [fourSizeResults, List.mem_cons, List.mem_singleton, List.not_mem_nil,
    or_false] at hp
  rcases hp with rfl | rfl | rfl | rfl <;> simp [generateSizeUrl, generateUrl, h]

theorem toDigits_length_pos (n : Nat) : 0 < (Nat.toDigits 10 n).length := by
  unfold Nat.toDigits
  simp only [Nat.toDigitsCore]
  split
  · simp
  · rw [Nat.toDigitsCore_lens_eq]
    exact Nat.succ_pos _

theorem natToString_ne_empty (n : Nat) : toString n ≠ "" := by
  intro h
  have h1 : Nat.toDigits 10 n = ([] : List Char) := congrArg String.data h
  have h2 := toDigits_length_pos n
  rw [h1] at h2
  simp at h2

/-- C4 counterexample: when the CDN existence hit carries no version token,
the route generates and caches a version-less URL, refuting "a version-less
URL is never stored". -/
theorem versioned_cache_write_cex :
    (imageRoute ⟨.ok ⟨none⟩, .err "x", .err "x"⟩ "foo.jpg" none
      ⟨[], 1000, 300000⟩ 0 "T").cacheWrites
      = [("image:foo.jpg:medium",
          ⟨"rentman-properties/foo", sizeTransformations "medium", none⟩)]
    ∧ ((imageRoute ⟨.ok ⟨none⟩, .err "x", .err "x"⟩ "foo.jpg" none
      ⟨[], 1000, 300000⟩ 0 "T").cacheWrites.map (fun p => p.2.version)) = [none] := by
  decide

/-- C4 amended: whenever the CDN result that feeds the write actually
carries a version — the existence hit on the CDN-found path, the upload
result on the upload path — every URL the route writes into the Transform
Cache carries that version token; a version-less URL can be stored only
when the CDN result itself lacks a version. -/
theorem versioned_cache_writes_amended (env : RouteEnv) (f : String) (q : Option String)
    (st : CacheState Url) (now : Nat) (ts : String) :
    (∀ info v, env.cdn = .ok info → info.version = some v →
       ∀ p ∈ (imageRoute env f q st now ts).cacheWrites, p.2.version = some (toString v))
    ∧ (∀ e resp v, env.cdn = .err e → env.upload = .ok resp → resp.version = some v →
       ∀ p ∈ (imageRoute env f q st now ts).cacheWrites, p.2.version = some (toString v)) := by
  constructor
  · intro info v hcdn hver p hp
    rcases hc : cacheGet st (imageCacheKey (stripSizeSuffix f) (extractImageSize q f)) now
      with ⟨o, st₁⟩
    rcases o with _ | u
    · rw [imageRoute.eq_def] at hp
      simp only [hc, hcdn, hver] at hp
      simp only [List.mem_singleton] at hp
      subst hp
      simp [generateSizeUrl, generateUrl, natToString_ne_empty v]
    · rw [imageRoute.eq_def] at hp
      simp only [hc] at hp
      simp at hp
  · intro e resp v hcdn hupl hver p hp
    rcases hc : cacheGet st (imageCacheKey (stripSizeSuffix f) (extractImageSize q f)) now
      with ⟨o, st₁⟩
    rcases o with _ | u
    · rcases env with ⟨cdn, up, upl⟩
      simp only at hcdn hupl
      subst hcdn
      subst hupl
      rcases up with l | e2
      · rcases l with _ | ⟨m, rest⟩
        · rw [imageRoute.eq_def] at hp
          simp only [hc] at hp
          simp at hp
        · rcases m with ⟨b64⟩
          rcases b64 with _ | b64v
          · rw [imageRoute.eq_def] at hp
            simp only [hc] at hp
            simp at hp
          · rw [imageRoute.eq_def] at hp
            simp only [hc, hver] at hp
            rcases List.mem_map.mp hp with ⟨r, hr, rfl⟩
            exact fourSizeResults_versions _ _ (natToString_ne_empty v) r hr
      · rw [imageRoute.eq_def] at hp
        simp only [hc] at hp
        simp at hp
    · rw [imageRoute.eq_def] at hp
      simp only [hc] at hp
      simp at hp

/-- Witness for the amended C4: a versioned upload result yields only
versioned cache writes at a concrete input. -/
theorem versioned_cache_writes_amended_witness :
    ∀ p ∈ (imageRoute ⟨.err "nf", .ok [⟨some "abc"⟩], .ok ⟨"rentman-properties/foo", some 42⟩⟩
      "foo.jpg" none ⟨[], 1000, 300000⟩ 0 "T").cacheWrites,
      p.2.version = some (toString 42) :=
  (versioned_cache_writes_amended
      ⟨.err "nf", .ok [⟨some "abc"⟩], .ok ⟨"rentman-properties/foo", some 42⟩⟩
      "foo.jpg" none ⟨[], 1000, 300000⟩ 0 "T").2
    "nf" ⟨"rentman-properties/foo", some 42⟩ 42 rfl rfl rfl

/-! ## Claim C6 -/

/-- C6: a CDN existence-check failure is never propagated to the caller: the
route's entire observable result is identical for any two CDN error values,
and when the upstream fetch and upload succeed the route still redirects —
having fallen through to the upstream-fetch-and-upload path — on any CDN
error whatsoever. -/
theorem cdn_error_falls_through :
    (∀ (e₁ e₂ : String) (up : CallResult (List MediaRecord)) (upl : CallResult UploadResp)
        (f : String) (q : Option String) (st : CacheState Url) (now : Nat) (ts : String),
        imageRoute ⟨.err e₁, up, upl⟩ f q st now ts = imageRoute ⟨.err e₂, up, upl⟩ f q st now ts)
    ∧ (∀ (e b64 : String) (rest : List MediaRecord) (resp : UploadResp)
        (f : String) (q : Option String) (st : CacheState Url) (now : Nat) (ts : String),
        (cacheGet st (imageCacheKey (stripSizeSuffix f) (extractImageSize q f)) now).1 = none →
        ∃ u, (imageRoute ⟨.err e, .ok (⟨some b64⟩ :: rest), .ok resp⟩ f q st now ts).reply
              = .redirect302 u
          ∧ (imageRoute ⟨.err e, .ok (⟨some b64⟩ :: rest), .ok resp⟩ f q st now ts).upstreamCalls = 1
          ∧ (imageRoute ⟨.err e, .ok (⟨some b64⟩ :: rest), .ok resp⟩ f q st now ts).uploadCalls = 1) := by
  constructor
  · intro e₁ e₂ up upl f q st now ts
    rcases hc : cacheGet st (imageCacheKey (stripSizeSuffix f) (extractImageSize q f)) now
      with ⟨o, st₁⟩
    rcases o with _ | u <;> simp [imageRoute, hc]
  · intro e b64 rest resp f q st now ts hmiss
    rcases hc : cacheGet st (imageCacheKey (stripSizeSuffix f) (extractImageSize q f)) now
      with ⟨o, st₁⟩
    rw [hc] at hmiss
    simp only at hmiss
    subst hmiss
    have hrep : ∃ u, (imageRoute ⟨.err e, .ok (⟨some b64⟩ :: rest), .ok resp⟩
        f q st now ts).reply = .redirect302 u := by
      rw [imageRoute.eq_def]
      simp only [hc]
      exact ⟨_, rfl⟩
    rcases hrep with ⟨u, hu⟩
    exact ⟨u, hu, by simp [imageRoute, hc], by simp [imageRoute, hc]⟩

/-- Witness for C6: a concrete transient CDN failure still ends in a
redirect, with one upstream fetch and one upload. -/
theorem cdn_error_falls_through_witness :
    ∃ u, (imageRoute ⟨.err "socket hang up", .ok [⟨some "abc"⟩],
            .ok ⟨"rentman-properties/foo", some 42⟩⟩ "foo.jpg" none
            ⟨[], 1000, 300000⟩ 0 "T").reply = .redirect302 u
      ∧ (imageRoute ⟨.err "socket hang up", .ok [⟨some "abc"⟩],
            .ok ⟨"rentman-properties/foo", some 42⟩⟩ "foo.jpg" none
            ⟨[], 1000, 300000⟩ 0 "T").upstreamCalls = 1
      ∧ (imageRoute ⟨.err "socket hang up", .ok [⟨some "abc"⟩],
            .ok ⟨"rentman-properties/foo", some 42⟩⟩ "foo.jpg" none
            ⟨[], 1000, 300000⟩ 0 "T").uploadCalls = 1 :=
  cdn_error_falls_through.2 "socket hang up" "abc" [] ⟨"rentman-properties/foo", some 42⟩
    "foo.jpg" none ⟨[], 1000, 300000⟩ 0 "T" (by decide)

/-! ## Event-loop interleaving model of concurrent resolutions

N concurrent `GET /api/images/:filename` requests for one never-before-seen
base name are modelled as a transition system. Each request executes the
route handler; the atomic units are exactly the code segments between two
`await` suspension points of the source (Node's event loop never preempts
inside such a segment):

* from handler entry through the cache lookup to the start of the CDN
  existence check (`getImageInfo`) — one segment;
* from the CDN-check resumption through either the CDN-found response, or
  the in-flight registry check and — when no entry exists — the creation of
  the upload promise, its synchronous prefix up to `getPropertyMedia`'s
  first internal await, and `uploadingImages.set` — one segment (there is no
  `await` between `uploadingImages.get` and `uploadingImages.set` in
  app.ts:194-241, which the model renders by making check, spawn, and
  insert a single step);
* the upload promise body resumes twice: when the upstream fetch settles
  (immediately starting the CDN upload on success) and when the upload
  settles (writing the four cache entries and resolving the promise,
  synchronously);
* each awaiting requester resumes once the promise settles; the registering
  requester's resumption also runs the `finally` that deletes the registry
  entry.

The CDN existence check returns not-found only if the asset was absent when
the check was issued (`sawAbsent`), and may return the current version
whenever the asset is present at resumption. The upstream and the CDN are
deterministic for the one base name: `upstreamHasData` says whether the
upstream holds the record with payload, `uploadOk` whether the CDN accepts
uploads; Cloudinary versions are abstracted by the upload serial number
(distinct uploads get distinct versions). TTLs play no role inside one
burst (all writes use the same 3600 s TTL and no time passes), so the
per-size cache is a plain association list for this model. -/

inductive TaskPc where
  | fetching
  | uploading
  | resolved (version : Nat)
  | rejected
deriving DecidableEq

inductive ReqResponse where
  | served (u : Url)
  | failed
deriving DecidableEq

inductive ReqPc where
  | atStart
  | atCdn (sawAbsent : Bool)
  | waiting (tid : Nat)
  | owner (tid : Nat)
  | done (r : ReqResponse)
deriving DecidableEq

structure GState where
  reqs : List (String × ReqPc)
  tasks : List TaskPc
  registry : Option Nat
  sizeCache : List (String × Url)
  cdnVersion : Option Nat
  fetchCount : Nat
  uploadCount : Nat
deriving DecidableEq

structure UploadEnv where
  upstreamHasData : Bool
  uploadOk : Bool
deriving DecidableEq

/-- The public id of the one base name of the burst. -/
def burstPid : String := "rentman-properties/img1"

/-- URL generated for a size from the CDN-found path or an upload result. -/
def concUrl (size : String) (v : Nat) : Url :=
  generateSizeUrl burstPid size (some (toString v))

/-- The four-entry result map of the upload with serial number `v`. -/
def concResults (v : Nat) : List (String × Url) :=
  fourSizeResults burstPid (toString v)

/-- `cloudinaryResults[imageSize] || cloudinaryResults['medium']` over the
result map of upload `v`. -/
def selectResult (v : Nat) (size : String) : Url :=
  pickResultUrl (concResults v) size (concUrl "medium" v)

/-- `Map.set` on the per-size cache. -/
def putSize (size : String) (u : Url) (l : List (String × Url)) :
    List (String × Url) :=
  if (l.lookup size).isSome then
    l.map (fun p => if p.1 = size then (size, u) else p)
  else l ++ [(size, u)]

/-- The four cache writes performed when upload `v` resolves. -/
def writeAll (v : Nat) (l : List (String × Url)) : List (String × Url) :=
  (concResults v).foldl (fun acc p => putSize p.1 p.2 acc) l

def setReq (s : GState) (i : Nat) (sz : String) (pc : ReqPc) : GState :=
  { s with reqs := s.reqs.set i (sz, pc) }

def setTask (s : GState) (tid : Nat) (t : TaskPc) : GState :=
  { s with tasks := s.tasks.set tid t }

inductive Step (env : UploadEnv) : GState → GState → Prop where
  | cacheHit (s : GState) (i : Nat) (sz : String) (u : Url) :
      s.reqs.get? i = some (sz, .atStart) →
      s.sizeCache.lookup sz = some u →
      Step env s (setReq s i sz (.done (.served u)))
  | cacheMiss (s : GState) (i : Nat) (sz : String) :
      s.reqs.get? i = some (sz, .atStart) →
      s.sizeCache.lookup sz = none →
      Step env s (setReq s i sz (.atCdn s.cdnVersion.isNone))
  | cdnFound (s : GState) (i : Nat) (sz : String) (b : Bool) (v : Nat) :
      s.reqs.get? i = some (sz, .atCdn b) →
      s.cdnVersion = some v →
      Step env s { setReq s i sz (.done (.served (concUrl sz v))) with
                   sizeCache := putSize sz (concUrl sz v) s.sizeCache }
  | cdnMissWait (s : GState) (i : Nat) (sz : String) (tid : Nat) :
      s.reqs.get? i = some (sz, .atCdn true) →
      s.registry = some tid →
      Step env s (setReq s i sz (.waiting tid))
  | cdnMissSpawn (s : GState) (i : Nat) (sz : String) :
      s.reqs.get? i = some (sz, .atCdn true) →
      s.registry = none →
      Step env s { setReq s i sz (.owner s.tasks.length) with
                   tasks := s.tasks ++ [.fetching]
                   registry := some s.tasks.length
                   fetchCount := s.fetchCount + 1 }
  | fetchOk (s : GState) (tid : Nat) :
      s.tasks.get? tid = some .fetching →
      env.upstreamHasData = true →
      Step env s { setTask s tid .uploading with uploadCount := s.uploadCount + 1 }
  | fetchFail (s : GState) (tid : Nat) :
      s.tasks.get? tid = some .fetching →
      env.upstreamHasData = false →
      Step env s (setTask s tid .rejected)
  | uploadDone (s : GState) (tid : Nat) :
      s.tasks.get? tid = some .uploading →
      env.uploadOk = true →
      Step env s { setTask s tid (.resolved s.uploadCount) with
                   sizeCache := writeAll s.uploadCount s.sizeCache
                   cdnVersion := some s.uploadCount }
  | uploadFail (s : GState) (tid : Nat) :
      s.tasks.get? tid = some .uploading →
      env.uploadOk = false →
      Step env s (setTask s tid .rejected)
  | waiterServed (s : GState) (i : Nat) (sz : String) (tid v : Nat) :
      s.reqs.get? i = some (sz, .waiting tid) →
      s.tasks.get? tid = some (.resolved v) →
      Step env s (setReq s i sz (.done (.served (selectResult v sz))))
  | waiterFailed (s : GState) (i : Nat) (sz : String) (tid : Nat) :
      s.reqs.get? i = some (sz, .waiting tid) →
      s.tasks.get? tid = some .rejected →
      Step env s (setReq s i sz (.done .failed))
  | ownerServed (s : GState) (i : Nat) (sz : String) (tid v : Nat) :
      s.reqs.get? i = some (sz, .owner tid) →
      s.tasks.get? tid = some (.resolved v) →
      Step env s { setReq s i sz (.done (.served (selectResult v sz))) with
                   registry := none }
  | ownerFailed (s : GState) (i : Nat) (sz : String) (tid : Nat) :
      s.reqs.get? i = some (sz, .owner tid) →
      s.tasks.get? tid = some .rejected →
      Step env s { setReq s i sz (.done .failed) with registry := none }

def initState (szs : List String) : GState :=
  { reqs := szs.map (fun sz => (sz, .atStart)), tasks := [], registry := none,
    sizeCache := [], cdnVersion := none, fetchCount := 0, uploadCount := 0 }

def Reachable (env : UploadEnv) (szs : List String) (s : GState) : Prop :=
  Relation.ReflTransGen (Step env) (initState szs) s

/-- All requesters have responded. -/
def Terminal (s : GState) : Prop :=
  ∀ i sz pc, s.reqs.get? i = some (sz, pc) → ∃ r, pc = ReqPc.done r

/-- A task is active while its upstream fetch or its upload is in flight. -/
def TaskPc.isActive : TaskPc → Bool
  | .fetching => true
  | .uploading => true
  | .resolved _ => false
  | .rejected => false

/-! ## Supporting lemmas for the interleaving model -/

theorem lookup_cons_eqn {β : Type} (a : String) (p : String × β)
    (l : List (String × β)) :
    List.lookup a (p :: l) = if a == p.1 then some p.2 else List.lookup a l := by
  rcases p with ⟨k, v⟩
  rcases h : (a == k) with _ | _ <;> simp [List.lookup, h]

theorem lookup_mem {β : Type} (l : List (String × β)) (k : String) (v : β)
    (h : l.lookup k = some v) : (k, v) ∈ l := by
  induction l with
  | nil => cases h
  | cons p l ih =>
    rw [lookup_cons_eqn] at h
    by_cases hk : (k == p.1) = true
    · rw [if_pos hk] at h
      have h1 : p.2 = v := by simpa using h
      have h2 : k = p.1 := by simpa using hk
      have : (k, v) = p := by
        rw [h2, ← h1]
      rw [this]
      exact List.mem_cons_self _ _
    · rw [if_neg hk] at h
      exact List.mem_cons_of_mem _ (ih h)

theorem lookup_append_single {β : Type} (l : List (String × β)) (k k' : String)
    (u w : β) (h : (l ++ [(k, u)]).lookup k' = some w) :
    w = u ∨ l.lookup k' = some w := by
  induction l with
  | nil =>
    simp only [List.nil_append, List.lookup] at h
    rcases hbe : (k' == k) with _ | _ <;> rw [hbe] at h
    · cases h
    · simp only [Option.some.injEq] at h
      exact .inl h.symm
  | cons p l ih =>
    rcases hbe : (k' == p.1) with _ | _
    · have h' : (l ++ [(k, u)]).lookup k' = some w := by
        simpa [List.cons_append, List.lookup, hbe] using h
      exact (ih h').imp id (fun hl => by simpa [List.lookup, hbe] using hl)
    · have : some p.2 = some w := by
        simpa [List.cons_append, List.lookup, hbe] using h
      exact .inr (by simpa [List.lookup, hbe] using this)

theorem lookup_map_replace {β : Type} (k : String) (u : β)
    (l : List (String × β)) (k' : String) (w : β)
    (h : (l.map (fun p => if p.1 = k then (k, u) else p)).lookup k' = some w) :
    w = u ∨ l.lookup k' = some w := by
  induction l with
  | nil => cases h
  | cons p l ih =>
    rw [List.map_cons, lookup_cons_eqn] at h
    rw [lookup_cons_eqn]
    by_cases hpk : p.1 = k
    · rw [if_pos hpk] at h
      by_cases hbe : (k' == k) = true
      · have hbe2 : (k' == (k, u).1) = true := hbe
        rw [if_pos hbe2] at h
        have : u = w := by simpa using h
        exact .inl this.symm
      · have hbe2 : (k' == (k, u).1) = false := by simpa using hbe
        rw [if_neg (by simp [hbe2])] at h
        refine (ih h).imp id (fun hl => ?_)
        have hbe3 : (k' == p.1) = false := by rw [hpk]; simpa using hbe
        rw [if_neg (by simp [hbe3])]
        exact hl
    · rw [if_neg hpk] at h
      by_cases hbe : (k' == p.1) = true
      · rw [if_pos hbe] at h
        rw [if_pos hbe]
        exact .inr h
      · rw [if_neg hbe] at h
        rw [if_neg hbe]
        exact (ih h).imp id id

theorem putSize_lookup_cases (k : String) (u : Url) (l : List (String × Url))
    (k' : String) (w : Url) (h : (putSize k u l).lookup k' = some w) :
    w = u ∨ l.lookup k' = some w := by
  unfold putSize at h
  by_cases hs : (l.lookup k).isSome
  · rw [if_pos hs] at h
    exact lookup_map_replace k u l k' w h
  · rw [if_neg hs] at h
    exact lookup_append_single l k k' u w h

theorem writeAll_lookup_cases (v : Nat) (l : List (String × Url)) (k' : String)
    (w : Url) (h : (writeAll v l).lookup k' = some w) :
    (∃ sz, w = concUrl sz v) ∨ l.lookup k' = some w := by
  have hw : writeAll v l
      = putSize "original" (concUrl "original" v)
          (putSize "large" (concUrl "large" v)
            (putSize "medium" (concUrl "medium" v)
              (putSize "thumb" (concUrl "thumb" v) l))) := rfl
  rw [hw] at h
  rcases putSize_lookup_cases _ _ _ _ _ h with rfl | h
  · exact .inl ⟨"original", rfl⟩
  rcases putSize_lookup_cases _ _ _ _ _ h with rfl | h
  · exact .inl ⟨"large", rfl⟩
  rcases putSize_lookup_cases _ _ _ _ _ h with rfl | h
  · exact .inl ⟨"medium", rfl⟩
  rcases putSize_lookup_cases _ _ _ _ _ h with rfl | h
  · exact .inl ⟨"thumb", rfl⟩
  · exact .inr h

theorem concUrl_version (sz : String) (v : Nat) :
    (concUrl sz v).version = some (toString v) := by
  simp [concUrl, generateSizeUrl, generateUrl, natToString_ne_empty v]

theorem selectResult_version (v : Nat) (sz : String) :
    (selectResult v sz).version = some (toString v) := by
  unfold selectResult pickResultUrl
  rcases hl : (concResults v).lookup sz with _ | u
  · simp only [hl]
    exact concUrl_version "medium" v
  · simp only [hl]
    exact fourSizeResults_versions burstPid (toString v) (natToString_ne_empty v)
      (sz, u) (lookup_mem _ _ _ hl)

theorem countP_filter_set (l : List TaskPc) (n : Nat) (b a : TaskPc)
    (p : TaskPc → Bool) (h : l.get? n = some b) :
    ((l.set n a).filter p).length + (if p b then 1 else 0)
      = (l.filter p).length + (if p a then 1 else 0) := by
  induction l generalizing n with
  | nil => cases h
  | cons c l ih =>
    cases n with
    | zero =>
      have hcb : c = b := by simpa using h
      subst hcb
      simp only [List.set, List.filter_cons]
      cases hc : p c <;> cases ha : p a <;> simp [hc, ha]
    | succ n =>
      have h' : l.get? n = some b := by simpa using h
      have hih := ih n h'
      simp only [List.set, List.filter_cons]
      cases hc : p c <;> simp [hc] <;> omega

theorem singleton_of_get? {γ : Type} (l : List γ) (h1 : l.length ≤ 1) (n : Nat)
    (t : γ) (h : l.get? n = some t) : l = [t] ∧ n = 0 := by
  cases l with
  | nil => cases h
  | cons a l' =>
    cases l' with
    | nil =>
      cases n with
      | zero =>
        obtain rfl : a = t := by simpa using h
        exact ⟨rfl, rfl⟩
      | succ n => simp [List.get?] at h
    | cons b l'' => simp at h1

theorem setReq_get {s : GState} {i : Nat} {sz : String} {pc : ReqPc} {j : Nat}
    {e : String × ReqPc} (hij : (setReq s i sz pc).reqs.get? j = some e) :
    (j = i ∧ e = (sz, pc)) ∨ (j ≠ i ∧ s.reqs.get? j = some e) := by
  simp only [setReq] at hij
  rw [List.get?_set] at hij
  by_cases h : i = j
  · rw [if_pos h] at hij
    rcases ho : s.reqs.get? j with _ | old <;> rw [ho] at hij
    · cases hij
    · simp only [Option.map_eq_map, Option.map_some', Option.some.injEq] at hij
      exact .inl ⟨h.symm, hij.symm⟩
  · rw [if_neg h] at hij
    exact .inr ⟨fun hji => h hji.symm, hij⟩

theorem setTask_get {l : List TaskPc} {tid : Nat} {t : TaskPc} {j : Nat}
    {e : TaskPc} (hij : (l.set tid t).get? j = some e) :
    (j = tid ∧ e = t) ∨ (j ≠ tid ∧ l.get? j = some e) := by
  rw [List.get?_set] at hij
  by_cases h : tid = j
  · rw [if_pos h] at hij
    rcases ho : l.get? j with _ | old <;> rw [ho] at hij
    · cases hij
    · simp only [Option.map_eq_map, Option.map_some', Option.some.injEq] at hij
      exact .inl ⟨h.symm, hij.symm⟩
  · rw [if_neg h] at hij
    exact .inr ⟨fun hji => h hji.symm, hij⟩

theorem setReq_get_self {s : GState} {i : Nat} {sz : String} {pc : ReqPc}
    (hlt : i < s.reqs.length) :
    (setReq s i sz pc).reqs.get? i = some (sz, pc) := by
  simp only [setReq]
  exact List.get?_set_eq_of_lt _ hlt

/-! ## The inductive invariant of the interleaving model -/

structure Inv (env : UploadEnv) (s : GState) : Prop where
  reg_lt : ∀ tid, s.registry = some tid → tid < s.tasks.length
  reg_owner : ∀ tid, s.registry = some tid →
      ∃ i sz, s.reqs.get? i = some (sz, ReqPc.owner tid)
  owner_reg : ∀ i sz tid, s.reqs.get? i = some (sz, ReqPc.owner tid) →
      s.registry = some tid
  owner_uniq : ∀ i j szi szj ti tj, s.reqs.get? i = some (szi, ReqPc.owner ti) →
      s.reqs.get? j = some (szj, ReqPc.owner tj) → i = j
  active_reg : ∀ tid t, s.tasks.get? tid = some t → t.isActive = true →
      s.registry = some tid
  fetch_eq : s.fetchCount = s.tasks.length
  no_reject : env.upstreamHasData = true → env.uploadOk = true →
      ∀ t ∈ s.tasks, t ≠ TaskPc.rejected
  nofetch : env.upstreamHasData = false →
      ∀ t ∈ s.tasks, t = TaskPc.fetching ∨ t = TaskPc.rejected
  upload_eq : env.upstreamHasData = true → env.uploadOk = true →
      s.uploadCount = (s.tasks.filter (fun t => t ≠ TaskPc.fetching)).length
  resolved_v1 : env.upstreamHasData = true → env.uploadOk = true →
      s.tasks.length ≤ 1 → ∀ tid v, s.tasks.get? tid = some (TaskPc.resolved v) → v = 1
  cache_v1 : env.upstreamHasData = true → env.uploadOk = true → s.tasks.length ≤ 1 →
      ∀ sz u, s.sizeCache.lookup sz = some u → u.version = some (toString 1)
  done_v1 : env.upstreamHasData = true → env.uploadOk = true → s.tasks.length ≤ 1 →
      ∀ i sz r, s.reqs.get? i = some (sz, ReqPc.done r) →
        ∃ u, r = ReqResponse.served u ∧ u.version = some (toString 1)
  cdnv_v1 : env.upstreamHasData = true → env.uploadOk = true → s.tasks.length ≤ 1 →
      s.cdnVersion = none ∨ s.cdnVersion = some 1
  fail_nocache : ¬(env.upstreamHasData = true ∧ env.uploadOk = true) →
      s.sizeCache = [] ∧ s.cdnVersion = none

theorem inv_init (env : UploadEnv) (szs : List String) : Inv env (initState szs) := by
  have hget : ∀ i e, (initState szs).reqs.get? i = some e →
      ∃ sz, e = (sz, ReqPc.atStart) := by
    intro i e h
    unfold initState at h
    simp only [List.get?_map] at h
    rcases ho : szs.get? i with _ | sz <;> rw [ho] at h
    · cases h
    · simp only [Option.map_some', Option.some.injEq] at h
      exact ⟨sz, h.symm⟩
  refine ⟨?_, ?_, ?_, ?_, ?_, ?_, ?_, ?_, ?_, ?_, ?_, ?_, ?_, ?_⟩
  · intro tid h; cases h
  · intro tid h; cases h
  · intro i sz tid h
    rcases hget i _ h with ⟨sz', he⟩
    cases he
  · intro i j szi szj ti tj hi hj
    rcases hget i _ hi with ⟨sz', he⟩
    cases he
  · intro tid t h _
    cases h
  · rfl
  · intro _ _ t ht
    cases ht
  · intro _ t ht
    cases ht
  · intro _ _
    rfl
  · intro _ _ _ tid v h
    cases h
  · intro _ _ _ sz u h
    cases h
  · intro _ _ _ i sz r h
    rcases hget i _ h with ⟨sz', he⟩
    cases he
  · intro _ _ _
    exact .inl rfl
  · intro _
    exact ⟨rfl, rfl⟩

theorem setReq_get_ne {s : GState} {i : Nat} {sz : String} {pc : ReqPc} {j : Nat}
    (h : j ≠ i) : (setReq s i sz pc).reqs.get? j = s.reqs.get? j := by
  simp only [setReq]
  exact List.get?_set_ne _ _ (fun he => h he.symm)

theorem get?_some_lt {γ : Type} {l : List γ} {n : Nat} {a : γ}
    (h : l.get? n = some a) : n < l.length := by
  rcases List.get?_eq_some.mp h with ⟨hlt, _⟩
  exact hlt

theorem pres_cacheHit (env : UploadEnv) (s : GState) (i : Nat) (sz : String) (u : Url)
    (h1 : s.reqs.get? i = some (sz, .atStart))
    (h2 : s.sizeCache.lookup sz = some u)
    (hs : Inv env s) : Inv env (setReq s i sz (.done (.served u))) := by
  refine ⟨hs.reg_lt, ?_, ?_, ?_, hs.active_reg, hs.fetch_eq, hs.no_reject, hs.nofetch,
    hs.upload_eq, hs.resolved_v1, hs.cache_v1, ?_, hs.cdnv_v1, hs.fail_nocache⟩
  · intro tid h
    obtain ⟨j, szj, hj⟩ := hs.reg_owner tid h
    have hne : j ≠ i := by
      intro he
      rw [he, h1] at hj
      simp at hj
    exact ⟨j, szj, by rw [setReq_get_ne hne]; exact hj⟩
  · intro j szj tid hj
    rcases setReq_get hj with ⟨rfl, he⟩ | ⟨hne, hold⟩
    · simp at he
    · exact hs.owner_reg j szj tid hold
  · intro j j' szj szj' tj tj' hj hj'
    rcases setReq_get hj with ⟨rfl, he⟩ | ⟨hne, hold⟩
    · simp at he
    rcases setReq_get hj' with ⟨rfl, he'⟩ | ⟨hne', hold'⟩
    · simp at he'
    exact hs.owner_uniq _ _ _ _ _ _ hold hold'
  · intro hd hu hlen j szj r hj
    rcases setReq_get hj with ⟨rfl, he⟩ | ⟨hne, hold⟩
    · have hr : r = ReqResponse.served u := by
        have := congrArg Prod.snd he
        simpa using this
      exact ⟨u, hr, hs.cache_v1 hd hu hlen sz u h2⟩
    · exact hs.done_v1 hd hu hlen j szj r hold

theorem pres_cacheMiss (env : UploadEnv) (s : GState) (i : Nat) (sz : String)
    (h1 : s.reqs.get? i = some (sz, .atStart))
    (h2 : s.sizeCache.lookup sz = none)
    (hs : Inv env s) : Inv env (setReq s i sz (.atCdn s.cdnVersion.isNone)) := by
  refine ⟨hs.reg_lt, ?_, ?_, ?_, hs.active_reg, hs.fetch_eq, hs.no_reject, hs.nofetch,
    hs.upload_eq, hs.resolved_v1, hs.cache_v1, ?_, hs.cdnv_v1, hs.fail_nocache⟩
  · intro tid h
    obtain ⟨j, szj, hj⟩ := hs.reg_owner tid h
    have hne : j ≠ i := by
      intro he
      rw [he, h1] at hj
      simp at hj
    exact ⟨j, szj, by rw [setReq_get_ne hne]; exact hj⟩
  · intro j szj tid hj
    rcases setReq_get hj with ⟨rfl, he⟩ | ⟨hne, hold⟩
    · simp at he
    · exact hs.owner_reg j szj tid hold
  · intro j j' szj szj' tj tj' hj hj'
    rcases setReq_get hj with ⟨rfl, he⟩ | ⟨hne, hold⟩
    · simp at he
    rcases setReq_get hj' with ⟨rfl, he'⟩ | ⟨hne', hold'⟩
    · simp at he'
    exact hs.owner_uniq _ _ _ _ _ _ hold hold'
  · intro hd hu hlen j szj r hj
    rcases setReq_get hj with ⟨rfl, he⟩ | ⟨hne, hold⟩
    · simp at he
    · exact hs.done_v1 hd hu hlen j szj r hold

theorem pres_cdnFound (env : UploadEnv) (s : GState) (i : Nat) (sz : String)
    (b : Bool) (v : Nat)
    (h1 : s.reqs.get? i = some (sz, .atCdn b))
    (h2 : s.cdnVersion = some v)
    (hs : Inv env s) :
    Inv env { setReq s i sz (.done (.served (concUrl sz v))) with
              sizeCache := putSize sz (concUrl sz v) s.sizeCache } := by
  refine ⟨hs.reg_lt, ?_, ?_, ?_, hs.active_reg, hs.fetch_eq, hs.no_reject, hs.nofetch,
    hs.upload_eq, hs.resolved_v1, ?_, ?_, hs.cdnv_v1, ?_⟩
  · intro tid h
    obtain ⟨j, szj, hj⟩ := hs.reg_owner tid h
    have hne : j ≠ i := by
      intro he
      rw [he, h1] at hj
      simp at hj
    exact ⟨j, szj, by rw [setReq_get_ne hne]; exact hj⟩
  · intro j szj tid hj
    rcases setReq_get hj with ⟨rfl, he⟩ | ⟨hne, hold⟩
    · simp at he
    · exact hs.owner_reg j szj tid hold
  · intro j j' szj szj' tj tj' hj hj'
    rcases setReq_get hj with ⟨rfl, he⟩ | ⟨hne, hold⟩
    · simp at he
    rcases setReq_get hj' with ⟨rfl, he'⟩ | ⟨hne', hold'⟩
    · simp at he'
    exact hs.owner_uniq _ _ _ _ _ _ hold hold'
  · intro hd hu hlen sz' u' hl
    have hv1 : v = 1 := by
      rcases hs.cdnv_v1 hd hu hlen with hn | h1v
      · rw [hn] at h2; cases h2
      · rw [h1v] at h2; simpa using h2.symm
    rcases putSize_lookup_cases _ _ _ _ _ hl with rfl | hold
    · rw [concUrl_version, hv1]
    · exact hs.cache_v1 hd hu hlen sz' u' hold
  · intro hd hu hlen j szj r hj
    have hv1 : v = 1 := by
      rcases hs.cdnv_v1 hd hu hlen with hn | h1v
      · rw [hn] at h2; cases h2
      · rw [h1v] at h2; simpa using h2.symm
    rcases setReq_get hj with ⟨rfl, he⟩ | ⟨hne, hold⟩
    · have hr : r = ReqResponse.served (concUrl sz v) := by
        have := congrArg Prod.snd he
        simpa using this
      exact ⟨concUrl sz v, hr, by rw [concUrl_version, hv1]⟩
    · exact hs.done_v1 hd hu hlen j szj r hold
  · intro hns
    exfalso
    have := (hs.fail_nocache hns).2
    rw [this] at h2
    cases h2

theorem pres_cdnMissWait (env : UploadEnv) (s : GState) (i : Nat) (sz : String)
    (tid : Nat)
    (h1 : s.reqs.get? i = some (sz, .atCdn true))
    (h2 : s.registry = some tid)
    (hs : Inv env s) : Inv env (setReq s i sz (.waiting tid)) := by
  refine ⟨hs.reg_lt, ?_, ?_, ?_, hs.active_reg, hs.fetch_eq, hs.no_reject, hs.nofetch,
    hs.upload_eq, hs.resolved_v1, hs.cache_v1, ?_, hs.cdnv_v1, hs.fail_nocache⟩
  · intro tid' h
    obtain ⟨j, szj, hj⟩ := hs.reg_owner tid' h
    have hne : j ≠ i := by
      intro he
      rw [he, h1] at hj
      simp at hj
    exact ⟨j, szj, by rw [setReq_get_ne hne]; exact hj⟩
  · intro j szj tid' hj
    rcases setReq_get hj with ⟨rfl, he⟩ | ⟨hne, hold⟩
    · simp at he
    · exact hs.owner_reg j szj tid' hold
  · intro j j' szj szj' tj tj' hj hj'
    rcases setReq_get hj with ⟨rfl, he⟩ | ⟨hne, hold⟩
    · simp at he
    rcases setReq_get hj' with ⟨rfl, he'⟩ | ⟨hne', hold'⟩
    · simp at he'
    exact hs.owner_uniq _ _ _ _ _ _ hold hold'
  · intro hd hu hlen j szj r hj
    rcases setReq_get hj with ⟨rfl, he⟩ | ⟨hne, hold⟩
    · simp at he
    · exact hs.done_v1 hd hu hlen j szj r hold

theorem pres_cdnMissSpawn (env : UploadEnv) (s : GState) (i : Nat) (sz : String)
    (h1 : s.reqs.get? i = some (sz, .atCdn true))
    (h2 : s.registry = none)
    (hs : Inv env s) :
    Inv env { setReq s i sz (.owner s.tasks.length) with
              tasks := s.tasks ++ [.fetching]
              registry := some s.tasks.length
              fetchCount := s.fetchCount + 1 } := by
  have hilt : i < s.reqs.length := get?_some_lt h1
  have hnoowner : ∀ j szj tj, s.reqs.get? j = some (szj, ReqPc.owner tj) → False := by
    intro j szj tj hj
    have := hs.owner_reg j szj tj hj
    rw [h2] at this
    cases this
  refine ⟨?_, ?_, ?_, ?_, ?_, ?_, ?_, ?_, ?_, ?_, ?_, ?_, ?_, ?_⟩
  · intro tid h
    have htid : tid = s.tasks.length := by simpa using h.symm
    subst htid
    simp [List.length_append]
  · intro tid h
    have htid : tid = s.tasks.length := by simpa using h.symm
    subst htid
    exact ⟨i, sz, setReq_get_self hilt⟩
  · intro j szj tid hj
    rcases setReq_get hj with ⟨rfl, he⟩ | ⟨hne, hold⟩
    · have : tid = s.tasks.length := by
        have := congrArg Prod.snd he
        simpa using this
      subst this
      rfl
    · exact absurd hold (fun hh => hnoowner j szj tid hh)
  · intro j j' szj szj' tj tj' hj hj'
    rcases setReq_get hj with ⟨rfl, _⟩ | ⟨hne, hold⟩
    · rcases setReq_get hj' with ⟨rfl, _⟩ | ⟨hne', hold'⟩
      · rfl
      · exact absurd hold' (fun hh => hnoowner j' szj' tj' hh)
    · exact absurd hold (fun hh => hnoowner j szj tj hh)
  · intro tid t ht hact
    by_cases htid : tid < s.tasks.length
    · rw [List.get?_append htid] at ht
      have := hs.active_reg tid t ht hact
      rw [h2] at this
      cases this
    · by_cases htid2 : tid = s.tasks.length
      · subst htid2
        rfl
      · have hge : (s.tasks ++ [TaskPc.fetching]).length ≤ tid := by
          rw [List.length_append]
          simp only [List.length_singleton]
          omega
        rw [List.get?_len_le hge] at ht
        cases ht
  · show s.fetchCount + 1 = (s.tasks ++ [TaskPc.fetching]).length
    rw [List.length_append, hs.fetch_eq]
    rfl
  · intro hd hu t ht
    rcases List.mem_append.mp ht with hold | hnew
    · exact hs.no_reject hd hu t hold
    · have : t = TaskPc.fetching := by simpa using hnew
      subst this
      intro hc
      cases hc
  · intro hfd t ht
    rcases List.mem_append.mp ht with hold | hnew
    · exact hs.nofetch hfd t hold
    · exact .inl (by simpa using hnew)
  · intro hd hu
    show s.uploadCount = ((s.tasks ++ [TaskPc.fetching]).filter _).length
    rw [List.filter_append]
    simp only [List.filter_cons, List.filter_nil]
    rw [hs.upload_eq hd hu]
    simp
  · intro hd hu hlen tid v ht
    have hlen2 : (s.tasks ++ [TaskPc.fetching]).length ≤ 1 := hlen
    have hlen0 : s.tasks.length = 0 := by
      rw [List.length_append] at hlen2
      simp only [List.length_singleton] at hlen2
      omega
    have hnil : s.tasks = [] := List.length_eq_zero.mp hlen0
    rw [hnil] at ht
    simp only [List.nil_append] at ht
    rcases tid with _ | tid
    · simp at ht
    · simp [List.get?] at ht
  · intro hd hu hlen sz' u' hl
    have hlen2 : (s.tasks ++ [TaskPc.fetching]).length ≤ 1 := hlen
    have hlen' : s.tasks.length ≤ 1 := by
      rw [List.length_append] at hlen2
      simp only [List.length_singleton] at hlen2
      omega
    exact hs.cache_v1 hd hu hlen' sz' u' hl
  · intro hd hu hlen j szj r hj
    have hlen2 : (s.tasks ++ [TaskPc.fetching]).length ≤ 1 := hlen
    have hlen' : s.tasks.length ≤ 1 := by
      rw [List.length_append] at hlen2
      simp only [List.length_singleton] at hlen2
      omega
    rcases setReq_get hj with ⟨rfl, he⟩ | ⟨hne, hold⟩
    · simp at he
    · exact hs.done_v1 hd hu hlen' j szj r hold
  · intro hd hu hlen
    have hlen2 : (s.tasks ++ [TaskPc.fetching]).length ≤ 1 := hlen
    have hlen' : s.tasks.length ≤ 1 := by
      rw [List.length_append] at hlen2
      simp only [List.length_singleton] at hlen2
      omega
    exact hs.cdnv_v1 hd hu hlen'
  · exact hs.fail_nocache

theorem setTask_tasks (s : GState) (tid : Nat) (t : TaskPc) :
    (setTask s tid t).tasks = s.tasks.set tid t := rfl

theorem pres_fetchOk (env : UploadEnv) (s : GState) (tid : Nat)
    (h1 : s.tasks.get? tid = some .fetching)
    (h2 : env.upstreamHasData = true)
    (hs : Inv env s) :
    Inv env { setTask s tid .uploading with uploadCount := s.uploadCount + 1 } := by
  refine ⟨?_, hs.reg_owner, hs.owner_reg, hs.owner_uniq, ?_, ?_, ?_, ?_, ?_, ?_, ?_, ?_, ?_,
    hs.fail_nocache⟩
  · intro tid' h
    have := hs.reg_lt tid' h
    show tid' < (s.tasks.set tid .uploading).length
    rw [List.length_set]
    exact this
  · intro tid' t ht hact
    rcases setTask_get ht with ⟨rfl, rfl⟩ | ⟨hne, hold⟩
    · exact hs.active_reg tid' .fetching h1 rfl
    · exact hs.active_reg tid' t hold hact
  · show s.fetchCount = (s.tasks.set tid .uploading).length
    rw [List.length_set]
    exact hs.fetch_eq
  · intro hd hu t ht
    rcases List.mem_or_eq_of_mem_set ht with hold | rfl
    · exact hs.no_reject hd hu t hold
    · intro hc
      cases hc
  · intro hfd t _
    rw [hfd] at h2
    cases h2
  · intro hd hu
    have hc := countP_filter_set s.tasks tid .fetching .uploading
      (fun t => t ≠ TaskPc.fetching) h1
    simp at hc
    have hup := hs.upload_eq hd hu
    simp only [ne_eq, decide_not] at hup
    show s.uploadCount + 1 = ((s.tasks.set tid .uploading).filter
      (fun t => t ≠ TaskPc.fetching)).length
    simp only [ne_eq, decide_not]
    omega
  · intro hd hu hlen tid' v ht
    rcases setTask_get ht with ⟨rfl, he⟩ | ⟨hne, hold⟩
    · cases he
    · have hlen' : s.tasks.length ≤ 1 := by
        rw [show ((setTask s tid .uploading).tasks).length = s.tasks.length from by
          rw [setTask_tasks, List.length_set]] at hlen
        exact hlen
      exact hs.resolved_v1 hd hu hlen' tid' v hold
  · intro hd hu hlen sz' u' hl
    have hlen' : s.tasks.length ≤ 1 := by
      rw [show ((setTask s tid .uploading).tasks).length = s.tasks.length from by
        rw [setTask_tasks, List.length_set]] at hlen
      exact hlen
    exact hs.cache_v1 hd hu hlen' sz' u' hl
  · intro hd hu hlen j szj r hj
    have hlen' : s.tasks.length ≤ 1 := by
      rw [show ((setTask s tid .uploading).tasks).length = s.tasks.length from by
        rw [setTask_tasks, List.length_set]] at hlen
      exact hlen
    exact hs.done_v1 hd hu hlen' j szj r hj
  · intro hd hu hlen
    have hlen' : s.tasks.length ≤ 1 := by
      rw [show ((setTask s tid .uploading).tasks).length = s.tasks.length from by
        rw [setTask_tasks, List.length_set]] at hlen
      exact hlen
    exact hs.cdnv_v1 hd hu hlen'

theorem pres_fetchFail (env : UploadEnv) (s : GState) (tid : Nat)
    (h1 : s.tasks.get? tid = some .fetching)
    (h2 : env.upstreamHasData = false)
    (hs : Inv env s) : Inv env (setTask s tid .rejected) := by
  refine ⟨?_, hs.reg_owner, hs.owner_reg, hs.owner_uniq, ?_, ?_, ?_, ?_, ?_, ?_, ?_, ?_, ?_,
    hs.fail_nocache⟩
  · intro tid' h
    have := hs.reg_lt tid' h
    show tid' < (s.tasks.set tid .rejected).length
    rw [List.length_set]
    exact this
  · intro tid' t ht hact
    rcases setTask_get ht with ⟨rfl, rfl⟩ | ⟨hne, hold⟩
    · cases hact
    · exact hs.active_reg tid' t hold hact
  · show s.fetchCount = (s.tasks.set tid .rejected).length
    rw [List.length_set]
    exact hs.fetch_eq
  · intro hd _
    rw [hd] at h2
    cases h2
  · intro hfd t ht
    rcases List.mem_or_eq_of_mem_set ht with hold | rfl
    · exact hs.nofetch hfd t hold
    · exact .inr rfl
  · intro hd _
    rw [hd] at h2
    cases h2
  · intro hd _
    rw [hd] at h2
    cases h2
  · intro hd _
    rw [hd] at h2
    cases h2
  · intro hd _
    rw [hd] at h2
    cases h2
  · intro hd _
    rw [hd] at h2
    cases h2

theorem pres_uploadDone (env : UploadEnv) (s : GState) (tid : Nat)
    (h1 : s.tasks.get? tid = some .uploading)
    (h2 : env.uploadOk = true)
    (hs : Inv env s) :
    Inv env { setTask s tid (.resolved s.uploadCount) with
              sizeCache := writeAll s.uploadCount s.sizeCache
              cdnVersion := some s.uploadCount } := by
  have huc1 : ∀ (hd : env.upstreamHasData = true) (hu : env.uploadOk = true),
      s.tasks.length ≤ 1 → s.uploadCount = 1 := by
    intro hd hu hlen
    obtain ⟨hsing, rfl⟩ := singleton_of_get? s.tasks hlen tid .uploading h1
    rw [hs.upload_eq hd hu, hsing]
    rfl
  refine ⟨?_, hs.reg_owner, hs.owner_reg, hs.owner_uniq, ?_, ?_, ?_, ?_, ?_, ?_, ?_, ?_, ?_, ?_⟩
  · intro tid' h
    have := hs.reg_lt tid' h
    show tid' < (s.tasks.set tid _).length
    rw [List.length_set]
    exact this
  · intro tid' t ht hact
    rcases setTask_get ht with ⟨rfl, rfl⟩ | ⟨hne, hold⟩
    · cases hact
    · exact hs.active_reg tid' t hold hact
  · show s.fetchCount = (s.tasks.set tid _).length
    rw [List.length_set]
    exact hs.fetch_eq
  · intro hd hu t ht
    rcases List.mem_or_eq_of_mem_set ht with hold | rfl
    · exact hs.no_reject hd hu t hold
    · intro hc
      cases hc
  · intro hfd t ht
    exfalso
    rcases hs.nofetch hfd .uploading (List.get?_mem h1) with hc | hc <;> cases hc
  · intro hd hu
    have hc := countP_filter_set s.tasks tid .uploading (.resolved s.uploadCount)
      (fun t => t ≠ TaskPc.fetching) h1
    simp at hc
    have hup := hs.upload_eq hd hu
    simp only [ne_eq, decide_not] at hup
    show s.uploadCount = ((s.tasks.set tid _).filter (fun t => t ≠ TaskPc.fetching)).length
    simp only [ne_eq, decide_not]
    omega
  · intro hd hu hlen tid' v ht
    have hlen' : s.tasks.length ≤ 1 := by
      have h0 : ((s.tasks.set tid (TaskPc.resolved s.uploadCount)).length) ≤ 1 := hlen
      rw [List.length_set] at h0
      exact h0
    rcases setTask_get ht with ⟨rfl, he⟩ | ⟨hne, hold⟩
    · have hv : v = s.uploadCount := by
        injection he with hv2
      rw [hv]
      exact huc1 hd hu hlen'
    · exact hs.resolved_v1 hd hu hlen' tid' v hold
  · intro hd hu hlen sz' u' hl
    have hlen' : s.tasks.length ≤ 1 := by
      have h0 : ((s.tasks.set tid (TaskPc.resolved s.uploadCount)).length) ≤ 1 := hlen
      rw [List.length_set] at h0
      exact h0
    rcases writeAll_lookup_cases _ _ _ _ hl with ⟨sz'', rfl⟩ | hold
    · rw [concUrl_version, huc1 hd hu hlen']
    · exact hs.cache_v1 hd hu hlen' sz' u' hold
  · intro hd hu hlen j szj r hj
    have hlen' : s.tasks.length ≤ 1 := by
      have h0 : ((s.tasks.set tid (TaskPc.resolved s.uploadCount)).length) ≤ 1 := hlen
      rw [List.length_set] at h0
      exact h0
    exact hs.done_v1 hd hu hlen' j szj r hj
  · intro hd hu hlen
    have hlen' : s.tasks.length ≤ 1 := by
      have h0 : ((s.tasks.set tid (TaskPc.resolved s.uploadCount)).length) ≤ 1 := hlen
      rw [List.length_set] at h0
      exact h0
    right
    show some s.uploadCount = some 1
    rw [huc1 hd hu hlen']
  · intro hns
    exfalso
    have hfd : env.upstreamHasData = false := by
      rcases hb : env.upstreamHasData with _ | _
      · rfl
      · exact absurd ⟨hb, h2⟩ hns
    rcases hs.nofetch hfd .uploading (List.get?_mem h1) with hc | hc <;> cases hc

theorem pres_uploadFail (env : UploadEnv) (s : GState) (tid : Nat)
    (h1 : s.tasks.get? tid = some .uploading)
    (h2 : env.uploadOk = false)
    (hs : Inv env s) : Inv env (setTask s tid .rejected) := by
  refine ⟨?_, hs.reg_owner, hs.owner_reg, hs.owner_uniq, ?_, ?_, ?_, ?_, ?_, ?_, ?_, ?_, ?_,
    hs.fail_nocache⟩
  · intro tid' h
    have := hs.reg_lt tid' h
    show tid' < (s.tasks.set tid .rejected).length
    rw [List.length_set]
    exact this
  · intro tid' t ht hact
    rcases setTask_get ht with ⟨rfl, rfl⟩ | ⟨hne, hold⟩
    · cases hact
    · exact hs.active_reg tid' t hold hact
  · show s.fetchCount = (s.tasks.set tid .rejected).length
    rw [List.length_set]
    exact hs.fetch_eq
  · intro _ hu
    rw [hu] at h2
    cases h2
  · intro hfd t ht
    rcases List.mem_or_eq_of_mem_set ht with hold | rfl
    · exact hs.nofetch hfd t hold
    · exact .inr rfl
  · intro _ hu
    rw [hu] at h2
    cases h2
  · intro _ hu
    rw [hu] at h2
    cases h2
  · intro _ hu
    rw [hu] at h2
    cases h2
  · intro _ hu
    rw [hu] at h2
    cases h2
  · intro _ hu
    rw [hu] at h2
    cases h2

theorem pres_waiterServed (env : UploadEnv) (s : GState) (i : Nat) (sz : String)
    (tid v : Nat)
    (h1 : s.reqs.get? i = some (sz, .waiting tid))
    (h2 : s.tasks.get? tid = some (.resolved v))
    (hs : Inv env s) :
    Inv env (setReq s i sz (.done (.served (selectResult v sz)))) := by
  refine ⟨hs.reg_lt, ?_, ?_, ?_, hs.active_reg, hs.fetch_eq, hs.no_reject, hs.nofetch,
    hs.upload_eq, hs.resolved_v1, hs.cache_v1, ?_, hs.cdnv_v1, hs.fail_nocache⟩
  · intro tid' h
    obtain ⟨j, szj, hj⟩ := hs.reg_owner tid' h
    have hne : j ≠ i := by
      intro he
      rw [he, h1] at hj
      simp at hj
    exact ⟨j, szj, by rw [setReq_get_ne hne]; exact hj⟩
  · intro j szj tid' hj
    rcases setReq_get hj with ⟨rfl, he⟩ | ⟨hne, hold⟩
    · simp at he
    · exact hs.owner_reg j szj tid' hold
  · intro j j' szj szj' tj tj' hj hj'
    rcases setReq_get hj with ⟨rfl, he⟩ | ⟨hne, hold⟩
    · simp at he
    rcases setReq_get hj' with ⟨rfl, he'⟩ | ⟨hne', hold'⟩
    · simp at he'
    exact hs.owner_uniq _ _ _ _ _ _ hold hold'
  · intro hd hu hlen j szj r hj
    rcases setReq_get hj with ⟨rfl, he⟩ | ⟨hne, hold⟩
    · have hr : r = ReqResponse.served (selectResult v sz) := by
        have := congrArg Prod.snd he
        simpa using this
      have hv1 : v = 1 := hs.resolved_v1 hd hu hlen tid v h2
      exact ⟨selectResult v sz, hr, by rw [selectResult_version, hv1]⟩
    · exact hs.done_v1 hd hu hlen j szj r hold

theorem pres_waiterFailed (env : UploadEnv) (s : GState) (i : Nat) (sz : String)
    (tid : Nat)
    (h1 : s.reqs.get? i = some (sz, .waiting tid))
    (h2 : s.tasks.get? tid = some .rejected)
    (hs : Inv env s) : Inv env (setReq s i sz (.done .failed)) := by
  refine ⟨hs.reg_lt, ?_, ?_, ?_, hs.active_reg, hs.fetch_eq, hs.no_reject, hs.nofetch,
    hs.upload_eq, hs.resolved_v1, hs.cache_v1, ?_, hs.cdnv_v1, hs.fail_nocache⟩
  · intro tid' h
    obtain ⟨j, szj, hj⟩ := hs.reg_owner tid' h
    have hne : j ≠ i := by
      intro he
      rw [he, h1] at hj
      simp at hj
    exact ⟨j, szj, by rw [setReq_get_ne hne]; exact hj⟩
  · intro j szj tid' hj
    rcases setReq_get hj with ⟨rfl, he⟩ | ⟨hne, hold⟩
    · simp at he
    · exact hs.owner_reg j szj tid' hold
  · intro j j' szj szj' tj tj' hj hj'
    rcases setReq_get hj with ⟨rfl, he⟩ | ⟨hne, hold⟩
    · simp at he
    rcases setReq_get hj' with ⟨rfl, he'⟩ | ⟨hne', hold'⟩
    · simp at he'
    exact hs.owner_uniq _ _ _ _ _ _ hold hold'
  · intro hd hu hlen j szj r hj
    rcases setReq_get hj with ⟨rfl, he⟩ | ⟨hne, hold⟩
    · exfalso
      exact hs.no_reject hd hu .rejected (List.get?_mem h2) rfl
    · exact hs.done_v1 hd hu hlen j szj r hold

theorem pres_ownerServed (env : UploadEnv) (s : GState) (i : Nat) (sz : String)
    (tid v : Nat)
    (h1 : s.reqs.get? i = some (sz, .owner tid))
    (h2 : s.tasks.get? tid = some (.resolved v))
    (hs : Inv env s) :
    Inv env { setReq s i sz (.done (.served (selectResult v sz))) with
              registry := none } := by
  refine ⟨?_, ?_, ?_, ?_, ?_, hs.fetch_eq, hs.no_reject, hs.nofetch,
    hs.upload_eq, hs.resolved_v1, hs.cache_v1, ?_, hs.cdnv_v1, hs.fail_nocache⟩
  · intro tid' h
    cases h
  · intro tid' h
    cases h
  · intro j szj tid' hj
    rcases setReq_get hj with ⟨rfl, he⟩ | ⟨hne, hold⟩
    · simp at he
    · exact absurd (hs.owner_uniq _ _ _ _ _ _ hold h1) hne
  · intro j j' szj szj' tj tj' hj hj'
    rcases setReq_get hj with ⟨rfl, he⟩ | ⟨hne, hold⟩
    · simp at he
    · exact absurd (hs.owner_uniq _ _ _ _ _ _ hold h1) hne
  · intro tid' t ht hact
    exfalso
    have ht' : s.tasks.get? tid' = some t := ht
    have hr1 := hs.active_reg tid' t ht' hact
    have hr2 := hs.owner_reg i sz tid h1
    rw [hr2] at hr1
    have htt : tid' = tid := by simpa using hr1.symm
    subst htt
    rw [h2] at ht'
    have : t = TaskPc.resolved v := by simpa using ht'.symm
    subst this
    cases hact
  · intro hd hu hlen j szj r hj
    rcases setReq_get hj with ⟨rfl, he⟩ | ⟨hne, hold⟩
    · have hr : r = ReqResponse.served (selectResult v sz) := by
        have := congrArg Prod.snd he
        simpa using this
      have hv1 : v = 1 := hs.resolved_v1 hd hu hlen tid v h2
      exact ⟨selectResult v sz, hr, by rw [selectResult_version, hv1]⟩
    · exact hs.done_v1 hd hu hlen j szj r hold

theorem pres_ownerFailed (env : UploadEnv) (s : GState) (i : Nat) (sz : String)
    (tid : Nat)
    (h1 : s.reqs.get? i = some (sz, .owner tid))
    (h2 : s.tasks.get? tid = some .rejected)
    (hs : Inv env s) :
    Inv env { setReq s i sz (.done .failed) with registry := none } := by
  refine ⟨?_, ?_, ?_, ?_, ?_, hs.fetch_eq, hs.no_reject, hs.nofetch,
    hs.upload_eq, hs.resolved_v1, hs.cache_v1, ?_, hs.cdnv_v1, hs.fail_nocache⟩
  · intro tid' h
    cases h
  · intro tid' h
    cases h
  · intro j szj tid' hj
    rcases setReq_get hj with ⟨rfl, he⟩ | ⟨hne, hold⟩
    · simp at he
    · exact absurd (hs.owner_uniq _ _ _ _ _ _ hold h1) hne
  · intro j j' szj szj' tj tj' hj hj'
    rcases setReq_get hj with ⟨rfl, he⟩ | ⟨hne, hold⟩
    · simp at he
    · exact absurd (hs.owner_uniq _ _ _ _ _ _ hold h1) hne
  · intro tid' t ht hact
    exfalso
    have ht' : s.tasks.get? tid' = some t := ht
    have hr1 := hs.active_reg tid' t ht' hact
    have hr2 := hs.owner_reg i sz tid h1
    rw [hr2] at hr1
    have htt : tid' = tid := by simpa using hr1.symm
    subst htt
    rw [h2] at ht'
    have : t = TaskPc.rejected := by simpa using ht'.symm
    subst this
    cases hact
  · intro hd hu hlen j szj r hj
    rcases setReq_get hj with ⟨rfl, he⟩ | ⟨hne, hold⟩
    · exfalso
      exact hs.no_reject hd hu .rejected (List.get?_mem h2) rfl
    · exact hs.done_v1 hd hu hlen j szj r hold

theorem inv_step (env : UploadEnv) {s s' : GState} (hs : Inv env s)
    (hstep : Step env s s') : Inv env s' := by
  cases hstep with
  | cacheHit i sz u h1 h2 => exact pres_cacheHit env s i sz u h1 h2 hs
  | cacheMiss i sz h1 h2 => exact pres_cacheMiss env s i sz h1 h2 hs
  | cdnFound i sz b v h1 h2 => exact pres_cdnFound env s i sz b v h1 h2 hs
  | cdnMissWait i sz tid h1 h2 => exact pres_cdnMissWait env s i sz tid h1 h2 hs
  | cdnMissSpawn i sz h1 h2 => exact pres_cdnMissSpawn env s i sz h1 h2 hs
  | fetchOk tid h1 h2 => exact pres_fetchOk env s tid h1 h2 hs
  | fetchFail tid h1 h2 => exact pres_fetchFail env s tid h1 h2 hs
  | uploadDone tid h1 h2 => exact pres_uploadDone env s tid h1 h2 hs
  | uploadFail tid h1 h2 => exact pres_uploadFail env s tid h1 h2 hs
  | waiterServed i sz tid v h1 h2 => exact pres_waiterServed env s i sz tid v h1 h2 hs
  | waiterFailed i sz tid h1 h2 => exact pres_waiterFailed env s i sz tid h1 h2 hs
  | ownerServed i sz tid v h1 h2 => exact pres_ownerServed env s i sz tid v h1 h2 hs
  | ownerFailed i sz tid h1 h2 => exact pres_ownerFailed env s i sz tid h1 h2 hs

theorem inv_reachable (env : UploadEnv) (szs : List String) {s : GState}
    (h : Reachable env szs s) : Inv env s := by
  induction h with
  | refl => exact inv_init env szs
  | tail _ hstep ih => exact inv_step env ih hstep

/-! ## Concrete executions of the interleaving model -/

theorem terminal_one (sz1 : String) (r1 : ReqResponse) (tasks : List TaskPc)
    (reg : Option Nat) (cache : List (String × Url)) (cv : Option Nat) (f u : Nat) :
    Terminal ⟨[(sz1, .done r1)], tasks, reg, cache, cv, f, u⟩ := by
  intro i sz pc h
  cases i with
  | zero =>
    have h2 : (sz1, ReqPc.done r1) = (sz, pc) := by simpa using h
    exact ⟨r1, (congrArg Prod.snd h2).symm⟩
  | succ n => simp [List.get?] at h

theorem terminal_two (sz1 sz2 : String) (r1 r2 : ReqResponse) (tasks : List TaskPc)
    (reg : Option Nat) (cache : List (String × Url)) (cv : Option Nat) (f u : Nat) :
    Terminal ⟨[(sz1, .done r1), (sz2, .done r2)], tasks, reg, cache, cv, f, u⟩ := by
  intro i sz pc h
  cases i with
  | zero =>
    have h2 : (sz1, ReqPc.done r1) = (sz, pc) := by simpa using h
    exact ⟨r1, (congrArg Prod.snd h2).symm⟩
  | succ n =>
    cases n with
    | zero =>
      have h2 : (sz2, ReqPc.done r2) = (sz, pc) := by simpa using h
      exact ⟨r2, (congrArg Prod.snd h2).symm⟩
    | succ m => simp [List.get?] at h

/-- Environment of a failing run: the upstream has the record, the CDN
rejects the upload. -/
def traceFailEnv : UploadEnv := ⟨true, false⟩

def traceFailFinal : GState :=
  ⟨[("medium", .done .failed)], [.rejected], none, [], none, 1, 1⟩

theorem traceFail_reachable : Reachable traceFailEnv ["medium"] traceFailFinal :=
  .head (.cacheMiss _ 0 "medium" rfl rfl)
    (.head (.cdnMissSpawn _ 0 "medium" rfl rfl)
      (.head (.fetchOk _ 0 rfl rfl)
        (.head (.uploadFail _ 0 rfl rfl)
          (.head (.ownerFailed _ 0 "medium" 0 rfl rfl) .refl))))

/-- Environment of a successful run. -/
def raceEnv : UploadEnv := ⟨true, true⟩

/-- Final state of the duplicate-upload interleaving: request 1's CDN check
was issued while the asset was still absent and resumed only after request
0's whole pipeline — including the registry cleanup — had finished. -/
def raceFinal : GState :=
  ⟨[("medium", .done (.served (selectResult 1 "medium"))),
    ("medium", .done (.served (selectResult 2 "medium")))],
   [.resolved 1, .resolved 2], none, writeAll 2 (writeAll 1 []), some 2, 2, 2⟩

theorem race_reachable : Reachable raceEnv ["medium", "medium"] raceFinal :=
  .head (.cacheMiss _ 0 "medium" rfl rfl)
    (.head (.cacheMiss _ 1 "medium" rfl rfl)
      (.head (.cdnMissSpawn _ 0 "medium" rfl rfl)
        (.head (.fetchOk _ 0 rfl rfl)
          (.head (.uploadDone _ 0 rfl rfl)
            (.head (.ownerServed _ 0 "medium" 0 1 rfl rfl)
              (.head (.cdnMissSpawn _ 1 "medium" rfl rfl)
                (.head (.fetchOk _ 1 rfl rfl)
                  (.head (.uploadDone _ 1 rfl rfl)
                    (.head (.ownerServed _ 1 "medium" 1 2 rfl rfl) .refl)))))))))

/-- Final state of a single-upload run: request 1 found the in-flight
registry entry and awaited request 0's upload. -/
def okFinal : GState :=
  ⟨[("medium", .done (.served (selectResult 1 "medium"))),
    ("thumb", .done (.served (selectResult 1 "thumb")))],
   [.resolved 1], none, writeAll 1 [], some 1, 1, 1⟩

theorem ok_reachable : Reachable raceEnv ["medium", "thumb"] okFinal :=
  .head (.cacheMiss _ 0 "medium" rfl rfl)
    (.head (.cacheMiss _ 1 "thumb" rfl rfl)
      (.head (.cdnMissSpawn _ 0 "medium" rfl rfl)
        (.head (.cdnMissWait _ 1 "thumb" 0 rfl rfl)
          (.head (.fetchOk _ 0 rfl rfl)
            (.head (.uploadDone _ 0 rfl rfl)
              (.head (.waiterServed _ 1 "thumb" 0 1 rfl rfl)
                (.head (.ownerServed _ 0 "medium" 0 1 rfl rfl) .refl)))))))

/-! ## Claim C1 -/

/-- C1 counterexample: two concurrent requests for the same
never-before-seen base name, arriving together, in a legal event-loop
interleaving (request 1's CDN existence check was issued while the asset
was absent and resumed only after request 0's upload and registry cleanup
finished): the run performs two upstream fetches and two CDN uploads, and
the two callers receive different URLs (distinct version tokens), refuting
"exactly one upstream fetch and exactly one CDN upload are performed, all N
callers receive the same resulting size-to-URL map". -/
theorem at_most_one_upload_cex :
    Reachable raceEnv ["medium", "medium"] raceFinal
    ∧ Terminal raceFinal
    ∧ raceFinal.fetchCount = 2
    ∧ raceFinal.uploadCount = 2
    ∧ raceFinal.reqs.get? 0 = some ("medium", .done (.served (selectResult 1 "medium")))
    ∧ raceFinal.reqs.get? 1 = some ("medium", .done (.served (selectResult 2 "medium")))
    ∧ selectResult 1 "medium" ≠ selectResult 2 "medium" :=
  ⟨race_reachable,
   terminal_two _ _ _ _ _ _ _ _ _ _,
   rfl, rfl, rfl, rfl, by decide⟩

/-- C1 amended: (i) at most one upload task per base name is active at any
instant, in every reachable state (the registry check-and-insert is a
single suspension-free segment); (ii) a step that starts a new upstream
fetch can only fire from a state whose registry is empty and in which every
earlier upload has fully settled — a duplicate fetch needs the previous
upload's completion and cleanup to have happened; (iii) in every successful
run in which only one upload was started, exactly one upstream fetch and
one CDN upload are performed and every caller receives a URL bearing that
single upload's version token. -/
theorem at_most_one_upload_amended :
    (∀ (env : UploadEnv) (szs : List String) (s : GState), Reachable env szs s →
       ∀ tid₁ tid₂ t₁ t₂, s.tasks.get? tid₁ = some t₁ → s.tasks.get? tid₂ = some t₂ →
         t₁.isActive = true → t₂.isActive = true → tid₁ = tid₂)
    ∧ (∀ (env : UploadEnv) (szs : List String) (s s' : GState), Reachable env szs s →
       Step env s s' → s.fetchCount < s'.fetchCount →
       s.registry = none ∧ ∀ t ∈ s.tasks, t.isActive = false)
    ∧ (∀ (env : UploadEnv) (szs : List String) (s : GState),
       env.upstreamHasData = true → env.uploadOk = true →
       Reachable env szs s → Terminal s → s.fetchCount = 1 →
       s.uploadCount = 1
       ∧ ∀ i sz r, s.reqs.get? i = some (sz, ReqPc.done r) →
           ∃ u, r = ReqResponse.served u ∧ u.version = some (toString 1)) := by
  refine ⟨?_, ?_, ?_⟩
  · intro env szs s hr tid₁ tid₂ t₁ t₂ h₁ h₂ ha₁ ha₂
    have hinv := inv_reachable env szs hr
    have r₁ := hinv.active_reg tid₁ t₁ h₁ ha₁
    have r₂ := hinv.active_reg tid₂ t₂ h₂ ha₂
    rw [r₁] at r₂
    simpa using r₂
  · intro env szs s s' hr hstep hlt
    have hinv := inv_reachable env szs hr
    cases hstep with
    | cdnMissSpawn i sz h1 h2 =>
      refine ⟨h2, ?_⟩
      intro t ht
      rcases List.mem_iff_get?.mp ht with ⟨n, hn⟩
      rcases hb : t.isActive with _ | _
      · rfl
      · exfalso
        have := hinv.active_reg n t hn hb
        rw [h2] at this
        cases this
    | cacheHit i sz u h1 h2 => exact absurd hlt (Nat.lt_irrefl _)
    | cacheMiss i sz h1 h2 => exact absurd hlt (Nat.lt_irrefl _)
    | cdnFound i sz b v h1 h2 => exact absurd hlt (Nat.lt_irrefl _)
    | cdnMissWait i sz tid h1 h2 => exact absurd hlt (Nat.lt_irrefl _)
    | fetchOk tid h1 h2 => exact absurd hlt (Nat.lt_irrefl _)
    | fetchFail tid h1 h2 => exact absurd hlt (Nat.lt_irrefl _)
    | uploadDone tid h1 h2 => exact absurd hlt (Nat.lt_irrefl _)
    | uploadFail tid h1 h2 => exact absurd hlt (Nat.lt_irrefl _)
    | waiterServed i sz tid v h1 h2 => exact absurd hlt (Nat.lt_irrefl _)
    | waiterFailed i sz tid h1 h2 => exact absurd hlt (Nat.lt_irrefl _)
    | ownerServed i sz tid v h1 h2 => exact absurd hlt (Nat.lt_irrefl _)
    | ownerFailed i sz tid h1 h2 => exact absurd hlt (Nat.lt_irrefl _)
  · intro env szs s hd hu hr hterm hfc
    have hinv := inv_reachable env szs hr
    have hlen : s.tasks.length = 1 := by rw [← hinv.fetch_eq]; exact hfc
    have hsettle : ∀ tid t, s.tasks.get? tid = some t → t.isActive = false := by
      intro tid t ht
      rcases hb : t.isActive with _ | _
      · rfl
      · exfalso
        obtain ⟨i, sz, hi⟩ := hinv.reg_owner tid (hinv.active_reg tid t ht hb)
        obtain ⟨r, hrr⟩ := hterm i sz _ hi
        cases hrr
    rcases hts : s.tasks with _ | ⟨a, l⟩
    · rw [hts] at hlen; cases hlen
    · rcases l with _ | ⟨a2, l2⟩
      · have ha : s.tasks.get? 0 = some a := by rw [hts]; rfl
        have hnr : a ≠ TaskPc.rejected := hinv.no_reject hd hu a (by rw [hts]; exact List.mem_cons_self _ _)
        have hna : a.isActive = false := hsettle 0 a ha
        rcases a with _ | _ | v | _
        · cases hna
        · cases hna
        · constructor
          · rw [hinv.upload_eq hd hu, hts]
            rfl
          · intro i sz r hi
            exact hinv.done_v1 hd hu (by rw [hlen]) i sz r hi
        · exact absurd rfl hnr
      · rw [hts] at hlen
        simp at hlen

/-- Witness for the amended C1, conjunct (iii), at the concrete
single-upload two-request run. -/
theorem at_most_one_upload_amended_witness :
    okFinal.uploadCount = 1
    ∧ ∀ i sz r, okFinal.reqs.get? i = some (sz, ReqPc.done r) →
        ∃ u, r = ReqResponse.served u ∧ u.version = some (toString 1) :=
  at_most_one_upload_amended.2.2 raceEnv ["medium", "thumb"] okFinal rfl rfl
    ok_reachable (terminal_two _ _ _ _ _ _ _ _ _ _) rfl

/-! ## Claim C5 -/

/-- C5: whether the upload operation succeeds or throws, once every request
of the burst has settled, the in-flight registry holds no entry for the
base name (the `finally` cleanup ran), and a failing environment leaves no
cache entries behind — no negative caching — so a later resolution attempt
starts from scratch. -/
theorem upload_registry_cleanup (env : UploadEnv) (szs : List String) (s : GState)
    (hr : Reachable env szs s) (hterm : Terminal s) :
    s.registry = none
    ∧ (¬(env.upstreamHasData = true ∧ env.uploadOk = true) → s.sizeCache = []) := by
  have hinv := inv_reachable env szs hr
  constructor
  · rcases hreg : s.registry with _ | tid
    · rfl
    · exfalso
      obtain ⟨i, sz, hi⟩ := hinv.reg_owner tid hreg
      obtain ⟨r, hrr⟩ := hterm i sz _ hi
      cases hrr
  · intro hns
    exact (hinv.fail_nocache hns).1

/-- Witness for C5 at the concrete failing run: the CDN rejected the upload,
the terminal state holds no registry entry and no cache entry. -/
theorem upload_registry_cleanup_witness :
    traceFailFinal.registry = none
    ∧ (¬(traceFailEnv.upstreamHasData = true ∧ traceFailEnv.uploadOk = true) →
        traceFailFinal.sizeCache = []) :=
  upload_registry_cleanup traceFailEnv ["medium"] traceFailFinal traceFail_reachable
    (terminal_one _ _ _ _ _ _ _ _)

end LmBackend
